import Mathlib

/-!
Verification of the GPU competition portal backend (`src/backend`).

The development shallowly embeds the parts of the backend that the
specification talks about:

* the data model (`models.py`: `User`, `GpuInstance`),
* the vendor client (`control_gpufree.py`: `GPUFreeClient`),
* the two background loops of `main.py`
  (`check_inactive_users`, `daily_shutdown_task`),
* the request handlers of `main.py`
  (`create_user`, `update_user`, `delete_user`,
  `create_instance`, `delete_instance`, `query_instance`).

Timestamps (`DateTime` columns, heartbeats, thresholds) are embedded as
integers; hashing (from `auth.py`, which is not part of the sources) is
an abstract injective function.  SQLAlchemy behaviour that the source
relies on is made explicit: `Column(..., onupdate=func.now())` refreshes
`last_login` whenever an `UPDATE` with a net change is flushed for a
user row (`ormCommit` below), and Python truthiness tests such as
`if user.instance_id:` are embedded by `truthyInt` / `truthyStr` /
`truthyNat` rather than by `Option.isSome`.
-/

/-! ### Generic helpers -/

/-- Python truthiness of an optional string (`None` and `""` are falsy). -/
def truthyStr : Option String → Bool
  | none => false
  | some s => !(s == "")

/-- Python truthiness of an optional integer (`None` and `0` are falsy). -/
def truthyInt : Option Int → Bool
  | none => false
  | some n => !(n == 0)

/-- Python truthiness of an optional natural number (`None` and `0` are falsy). -/
def truthyNat : Option Nat → Bool
  | none => false
  | some n => !(n == 0)

/-- Mutate the first element satisfying `p` (`query(...).first()` followed by
an attribute assignment on the returned ORM row). -/
def updateFirst {α : Type} (p : α → Bool) (f : α → α) : List α → List α
  | [] => []
  | x :: xs => if p x then f x :: xs else x :: updateFirst p f xs

/-- Remove the first element satisfying `p` (`db.delete(row)` for a row obtained
with `query(...).first()`). -/
def eraseFirstP {α : Type} (p : α → Bool) : List α → List α
  | [] => []
  | x :: xs => if p x then xs else x :: eraseFirstP p xs

/-! ### Constants (`main.py` lines 57-62, `control_gpufree.py` lines 27-29) -/

def MAX_USERS_PER_ADMIN : Nat := 128

def INACTIVITY_TIMEOUT_MINUTES : Int := 180

def INACTIVITY_CHECK_INTERVAL : Int := 60

def DAILY_SHUTDOWN_HOUR : Int := 2

def STATUS_RUNNING : Int := 3

def STATUS_STOPPED : Int := 5

/-! ### Data model (`models.py`) -/

/-- A row of the `users` table.  `DateTime` columns are integers, nullable
columns are `Option`; `created_at` and `last_login` are `none` when only the
unmodelled server default ever wrote them. -/
structure User where
  id : Nat
  username : String
  hashed_password : String
  plain_password : Option String := none
  email : Option String := none
  phone : Option String := none
  target_url : String
  is_admin : Bool := false
  state : String := "inactive"
  instance_id : Option Int := none
  instance_uuid : Option String := none
  bearer_token : Option String := none
  owner : Option String := none
  last_heartbeat : Option Int := none
  last_login : Option Int := none
  created_at : Option Int := none
  deriving Repr, DecidableEq

/-- A row of the `gpu_instances` table. -/
structure GpuInstance where
  id : Nat
  instance_id : Int
  instance_uuid : String
  nickname : String
  vnc_url : Option String := none
  assigned_user_id : Option Nat := none
  deriving Repr, DecidableEq

/-- The relational store: both tables plus the autoincrement counters for the
primary keys. -/
structure DB where
  users : List User
  instances : List GpuInstance
  nextUserId : Nat
  nextInstanceId : Nat
  deriving Repr, DecidableEq

/-! ### Request bodies (`schemas.py`) -/

/-- `schemas.UserCreate`. -/
structure UserCreate where
  username : String
  password : String
  email : Option String := none
  phone : Option String := none
  target_url : String := "https://docs.swanlab.cn/guide_cloud/general/quick-start.html"
  is_admin : Bool := false
  bearer_token : Option String := none
  gpu_instance_id : Option Nat := none
  deriving Repr, DecidableEq

/-- `schemas.UserUpdate` (absent fields are `none`). -/
structure UserUpdate where
  username : Option String := none
  password : Option String := none
  email : Option String := none
  phone : Option String := none
  target_url : Option String := none
  is_admin : Option Bool := none
  state : Option String := none
  instance_id : Option Int := none
  instance_uuid : Option String := none
  bearer_token : Option String := none
  deriving Repr, DecidableEq

/-- `schemas.GpuInstanceCreate`. -/
structure GpuInstanceCreate where
  instance_uuid : String
  nickname : String
  vnc_url : Option String := none
  deriving Repr, DecidableEq

/-! ### Vendor client (`control_gpufree.py`) -/

/-- One entry of the vendor's `dataList` (the fields the client reads). -/
structure VInstance where
  webide_instance_id : Int
  webide_instance_uuid : String
  status : Int
  jupyter_url : Option String := none
  deriving Repr, DecidableEq

/-- The decoded envelope of the vendor list endpoint
(`{code, data: {dataList: [...]}}`). -/
structure ListEnvelope where
  code : Int
  dataList : List VInstance
  deriving Repr, DecidableEq

/-- The vendor side as the client observes it: the full instance list in the
vendor's listing order, whether the list request succeeds at transport level,
the envelope code it returns, and the envelope code an action request returns
(`none` is a transport failure). -/
structure Vendor where
  instances : List VInstance
  listTransportOk : Bool := true
  listCode : Int := 200
  actionResp : Option Int := some 200
  deriving Repr, DecidableEq

/-- The `PUT` payload of `_send_instance_action`. -/
structure ActionPayload where
  instance_id : Int
  instance_uuid : String
  start_mode : String
  action : String
  deriving Repr, DecidableEq

/-- `GPUFreeClient.list_instances`: `GET list_instance_pages` with the given
`page_no` and `page_size`; the vendor pages its list, `None` on transport
failure. -/
def list_instances (v : Vendor) (page_no page_size : Nat) : Option ListEnvelope :=
  if v.listTransportOk then
    some { code := v.listCode,
           dataList := (v.instances.drop ((page_no - 1) * page_size)).take page_size }
  else
    none

/-- `GPUFreeClient.get_instance_by_uuid`: one list request with `page_no=1`,
`page_size=50`, then a scan of the returned `dataList`. -/
def get_instance_by_uuid (v : Vendor) (uuid : String) : Option VInstance :=
  match list_instances v 1 50 with
  | some result =>
      if result.code == 200 then
        result.dataList.find? (fun inst => inst.webide_instance_uuid == uuid)
      else
        none
  | none => none

/-- `GPUFreeClient.get_instance_by_id`: one list request with `page_no=1`,
`page_size=50`, then a scan of the returned `dataList`. -/
def get_instance_by_id (v : Vendor) (instance_id : Int) : Option VInstance :=
  match list_instances v 1 50 with
  | some result =>
      if result.code == 200 then
        result.dataList.find? (fun inst => inst.webide_instance_id == instance_id)
      else
        none
  | none => none

/-- `GPUFreeClient.get_instance_status`. -/
def get_instance_status (v : Vendor) (instance_id : Int) : Option Int × Option String :=
  match get_instance_by_id v instance_id with
  | some inst => (some inst.status, inst.jupyter_url)
  | none => (none, none)

/-- `GPUFreeClient._send_instance_action`: the `PUT` request; the result is the
envelope code the vendor answers with (`none` on transport failure). -/
def send_instance_action (v : Vendor) (_payload : ActionPayload) : Option Int :=
  v.actionResp

/-- `GPUFreeClient.start_instance`.  Returns the success flag together with the
list of action requests actually sent to the vendor (empty when the
status pre-check short-circuits). -/
def start_instance (v : Vendor) (instance_id : Int) (instance_uuid : String) :
    Bool × List ActionPayload :=
  let pre := get_instance_by_uuid v instance_uuid
  if (match pre with
      | some inst => inst.status == STATUS_RUNNING
      | none => false) then
    (true, [])
  else
    let payload : ActionPayload :=
      { instance_id := instance_id, instance_uuid := instance_uuid,
        start_mode := "gpu", action := "start" }
    (send_instance_action v payload == some 200, [payload])

/-- `GPUFreeClient.stop_instance`. -/
def stop_instance (v : Vendor) (instance_id : Int) (instance_uuid : String) :
    Bool × List ActionPayload :=
  let pre := get_instance_by_uuid v instance_uuid
  if (match pre with
      | some inst => inst.status == STATUS_STOPPED
      | none => false) then
    (true, [])
  else
    let payload : ActionPayload :=
      { instance_id := instance_id, instance_uuid := instance_uuid,
        start_mode := "gpu", action := "stop" }
    (send_instance_action v payload == some 200, [payload])

/-- Two consecutive `start_instance` calls; between the calls the vendor state
evolves by `evolve` for every action request the first call sent.  Result:
both success flags and all action requests sent across the two calls. -/
def call_start_twice (evolve : Vendor → ActionPayload → Vendor) (v : Vendor)
    (instance_id : Int) (instance_uuid : String) : Bool × Bool × List ActionPayload :=
  let r1 := start_instance v instance_id instance_uuid
  let v2 := r1.2.foldl evolve v
  let r2 := start_instance v2 instance_id instance_uuid
  (r1.1, r2.1, r1.2 ++ r2.2)

/-- Two consecutive `stop_instance` calls, as in `call_start_twice`. -/
def call_stop_twice (evolve : Vendor → ActionPayload → Vendor) (v : Vendor)
    (instance_id : Int) (instance_uuid : String) : Bool × Bool × List ActionPayload :=
  let r1 := stop_instance v instance_id instance_uuid
  let v2 := r1.2.foldl evolve v
  let r2 := stop_instance v2 instance_id instance_uuid
  (r1.1, r2.1, r1.2 ++ r2.2)

/-! ### ORM flush semantics and the background loops (`main.py`) -/

/-- `db.commit()` after attribute assignments on a user row.  SQLAlchemy emits
an `UPDATE` only when the row has a net change, and `models.py` declares
`last_login = Column(DateTime, ..., onupdate=func.now())`, so every emitted
`UPDATE` also refreshes `last_login` to the current time. -/
def ormCommit (now : Int) (orig upd : User) : User :=
  if upd = orig then orig else { upd with last_login := some now }

/-- Outcome of one per-user stop attempt inside a loop body: the vendor stop
returned success, returned failure, or the body raised (caught by the
per-user `except`). -/
inductive StopOutcome where
  | success : StopOutcome
  | failure : StopOutcome
  | raised : StopOutcome
  deriving Repr, DecidableEq

/-- The shared per-user body of both loops: build a client, call
`stop_instance`, and on success set `state = "inactive"`,
`last_heartbeat = None` and commit; on failure or exception leave the row
alone (the `except` clause only logs). -/
def stopUserStep (stop : User → StopOutcome) (now : Int) (u : User) : User :=
  match stop u with
  | .success => ormCommit now u { u with state := "inactive", last_heartbeat := none }
  | .failure => u
  | .raised => u

/-- The selection filter of `check_inactive_users` (lines 145-150): SQL
`state == "active" AND instance_id IS NOT NULL AND last_heartbeat IS NOT NULL
AND last_heartbeat < threshold`. -/
def inactivitySelect (threshold : Int) (u : User) : Bool :=
  u.state == "active" && u.instance_id.isSome &&
    (match u.last_heartbeat with
     | some hb => decide (hb < threshold)
     | none => false)

/-- One pass of the `check_inactive_users` loop body at time `now`:
`threshold = now - timedelta(minutes=INACTIVITY_TIMEOUT_MINUTES)` (times in
seconds), every selected user runs `stopUserStep`, every other row is left
alone.  The second component lists the users for which a vendor stop was
attempted. -/
def check_inactive_users_pass (stop : User → StopOutcome) (now : Int)
    (users : List User) : List User × List User :=
  let threshold := now - 60 * INACTIVITY_TIMEOUT_MINUTES
  (users.map (fun u => if inactivitySelect threshold u then stopUserStep stop now u else u),
   users.filter (inactivitySelect threshold))

/-- Iterated passes of the inactivity loop; each pass has its own stop oracle
and wall-clock time.  Collects all users for which a stop was attempted. -/
def iterate_inactivity : List ((User → StopOutcome) × Int) → List User →
    List User × List User
  | [], users => (users, [])
  | p :: rest, users =>
      let r := check_inactive_users_pass p.1 p.2 users
      let r' := iterate_inactivity rest r.1
      (r'.1, r.2 ++ r'.2)

/-- The selection filter of `daily_shutdown_task` (lines 212-214): SQL
`instance_id IS NOT NULL`, regardless of state. -/
def dailySelect (u : User) : Bool :=
  u.instance_id.isSome

/-- One firing of the daily shutdown body: every user with a non-null
`instance_id` runs `stopUserStep`; the second component lists the users for
which a vendor stop was attempted. -/
def daily_shutdown_firing (stop : User → StopOutcome) (now : Int)
    (users : List User) : List User × List User :=
  (users.map (fun u => if dailySelect u then stopUserStep stop now u else u),
   users.filter dailySelect)

/-! ### Request handlers (`main.py`) -/

/-- Modelled from the spec: password hashing lives in `auth.py`, which is not
among the sources ("hashed credential"); any fixed injective function is
adequate, no claim inspects hashes. -/
def get_password_hash (password : String) : String :=
  "bcrypt$" ++ password

/-- The owned-user count of an admin: `query(User).filter(User.owner ==
name).count()` (SQL `NULL` never equals a string). -/
def countOwned (db : DB) (name : String) : Nat :=
  (db.users.filter (fun u => u.owner == some name)).length

/-- `POST /api/users` (`create_user`, lines 334-423), executed by the admin
named `currentName` at time `now`.  Every `HTTPException` is an `Except.error`
raised before anything is added to the session, so the store is untouched on
error. -/
def create_user (db : DB) (currentName : String) (req : UserCreate) (now : Int) :
    Except String DB :=
  if MAX_USERS_PER_ADMIN ≤ countOwned db currentName then
    .error "user limit reached"
  else if db.users.any (fun u => u.username == req.username) then
    .error "username exists"
  else if truthyStr req.email && db.users.any (fun u => u.email == req.email) then
    .error "email exists"
  else if truthyStr req.phone && db.users.any (fun u => u.phone == req.phone) then
    .error "phone exists"
  else if !req.is_admin && truthyNat req.gpu_instance_id then
    match db.instances.find? (fun g => some g.id == req.gpu_instance_id) with
    | none => .error "gpu instance does not exist"
    | some g =>
        if g.assigned_user_id.isSome then
          .error "gpu instance already assigned"
        else
          let tgt := if truthyStr g.vnc_url then g.vnc_url.getD req.target_url
                     else req.target_url
          let newUser : User :=
            { id := db.nextUserId, username := req.username,
              hashed_password := get_password_hash req.password,
              plain_password := some req.password,
              email := req.email, phone := req.phone, target_url := tgt,
              is_admin := req.is_admin, state := "inactive",
              instance_id := some g.instance_id,
              instance_uuid := some g.instance_uuid,
              bearer_token := req.bearer_token, owner := some currentName,
              last_heartbeat := none, last_login := some now, created_at := some now }
          .ok { db with
                users := db.users ++ [newUser],
                instances := updateFirst (fun x => some x.id == req.gpu_instance_id)
                  (fun x => { x with assigned_user_id := some db.nextUserId }) db.instances,
                nextUserId := db.nextUserId + 1 }
  else
    let newUser : User :=
      { id := db.nextUserId, username := req.username,
        hashed_password := get_password_hash req.password,
        plain_password := some req.password,
        email := req.email, phone := req.phone, target_url := req.target_url,
        is_admin := req.is_admin, state := "inactive",
        instance_id := none, instance_uuid := none,
        bearer_token := req.bearer_token, owner := some currentName,
        last_heartbeat := none, last_login := some now, created_at := some now }
    .ok { db with users := db.users ++ [newUser], nextUserId := db.nextUserId + 1 }

/-- `DELETE /api/users/{user_id}` (`delete_user`, lines 540-577), executed by
the admin row `current`.  The truthiness test `if user.instance_id:` guards
the release of the assigned instance; user deletion and release are committed
together. -/
def delete_user (db : DB) (current : User) (user_id : Nat) : Except String DB :=
  match db.users.find? (fun u => u.id == user_id) with
  | none => .error "user not found"
  | some u =>
      if u.id == current.id then
        .error "cannot delete yourself"
      else if !(u.owner == some current.username) then
        .error "can only delete users you created"
      else
        let insts :=
          if truthyInt u.instance_id then
            updateFirst (fun g => some g.instance_id == u.instance_id)
              (fun g => { g with assigned_user_id := none }) db.instances
          else
            db.instances
        .ok { db with users := eraseFirstP (fun x => x.id == user_id) db.users,
                      instances := insts }

/-- `PUT /api/users/{user_id}` (`update_user`, lines 447-537), executed by the
admin row `current` at time `now`.  Uniqueness checks run in source order and
abort before the commit; on success the found row is replaced by the patched
row, flushed through `ormCommit`. -/
def update_user (db : DB) (current : User) (user_id : Nat) (upd : UserUpdate)
    (now : Int) : Except String DB :=
  match db.users.find? (fun u => u.id == user_id) with
  | none => .error "user does not exist"
  | some u =>
      if !(u.owner == some current.username) && !(u.id == current.id) then
        .error "can only edit users you created"
      else if (match upd.username with
               | some nm => db.users.any (fun w => w.username == nm && !(w.id == user_id))
               | none => false) then
        .error "username exists"
      else if (match upd.email with
               | some e => truthyStr (some e) &&
                   db.users.any (fun w => w.email == some e && !(w.id == user_id))
               | none => false) then
        .error "email exists"
      else if (match upd.phone with
               | some p => truthyStr (some p) &&
                   db.users.any (fun w => w.phone == some p && !(w.id == user_id))
               | none => false) then
        .error "phone exists"
      else
        let u1 := { u with username := upd.username.getD u.username }
        let u2 := match upd.email with
                  | some e => { u1 with email := some e }
                  | none => u1
        let u3 := match upd.phone with
                  | some p => { u2 with phone := some p }
                  | none => u2
        let u4 := match upd.password with
                  | some pw => { u3 with hashed_password := get_password_hash pw,
                                         plain_password := some pw }
                  | none => u3
        let u5 := { u4 with target_url := upd.target_url.getD u4.target_url }
        let u6 := { u5 with state := upd.state.getD u5.state }
        let u7 := match upd.instance_id with
                  | some n => { u6 with instance_id := some n }
                  | none => u6
        let u8 := match upd.instance_uuid with
                  | some s => { u7 with instance_uuid := some s }
                  | none => u7
        let u9 := match upd.bearer_token with
                  | some t => { u8 with bearer_token := some t }
                  | none => u8
        let users' := updateFirst (fun x => x.id == user_id) (fun _ => ormCommit now u u9) db.users
        .ok { db with users := users' }

/-- `POST /api/instances` (`create_instance`, lines 775-837): the vendor
instance id is resolved from the uuid through `get_instance_by_uuid`; a falsy
resolved id (`if not instance_id:`) is rejected. -/
def create_instance (db : DB) (v : Vendor) (req : GpuInstanceCreate) :
    Except String DB :=
  if db.instances.any (fun g => g.instance_uuid == req.instance_uuid) then
    .error "instance uuid exists"
  else
    match get_instance_by_uuid v req.instance_uuid with
    | none => .error "instance not found at vendor"
    | some data =>
        if data.webide_instance_id == 0 then
          .error "no instance id from vendor"
        else if db.instances.any (fun g => g.instance_id == data.webide_instance_id) then
          .error "instance id exists"
        else
          .ok { db with
                instances := db.instances ++
                  [{ id := db.nextInstanceId,
                     instance_id := data.webide_instance_id,
                     instance_uuid := req.instance_uuid,
                     nickname := req.nickname,
                     vnc_url := req.vnc_url,
                     assigned_user_id := none }],
                nextInstanceId := db.nextInstanceId + 1 }

/-- `DELETE /api/instances/{id}` (`delete_instance`, lines 891-916): deletion
is refused while `assigned_user_id` is non-null. -/
def delete_instance (db : DB) (id : Nat) : Except String DB :=
  match db.instances.find? (fun g => g.id == id) with
  | none => .error "instance does not exist"
  | some g =>
      if g.assigned_user_id.isSome then
        .error "cannot delete an assigned instance"
      else
        .ok { db with instances := eraseFirstP (fun x => x.id == id) db.instances }

/-- `GET /api/portal/query-instance` (`query_instance`, lines 671-722) on the
authenticated user's row: status 3 sets `state = "active"`, status 5 sets
`state = "inactive"`, any other status leaves it; the commit goes through
`ormCommit`.  Returns the patched row, the status code and the jupyter url. -/
def query_instance (v : Vendor) (now : Int) (u : User) :
    Except String (User × Int × Option String) :=
  if !truthyInt u.instance_id then
    .error "no gpu instance configured"
  else
    match u.instance_id with
    | none => .error "no gpu instance configured"
    | some iid =>
        match get_instance_status v iid with
        | (some status_code, jupyter_url) =>
            let u' := if status_code == STATUS_RUNNING then { u with state := "active" }
                      else if status_code == STATUS_STOPPED then { u with state := "inactive" }
                      else u
            .ok (ormCommit now u u', status_code, jupyter_url)
        | (none, _) => .error "instance not found"

/-- The store-level effect of `query_instance` for the authenticated user with
id `uid`: only that user's row can change, and only when the handler
succeeds. -/
def query_instance_db (v : Vendor) (now : Int) (db : DB) (uid : Nat) : DB :=
  match db.users.find? (fun u => u.id == uid) with
  | none => db
  | some u =>
      match query_instance v now u with
      | .ok r => { db with users := updateFirst (fun x => x.id == uid) (fun _ => r.1) db.users }
      | .error _ => db

/-! ### Initial state and the denormalization invariant -/

/-- `init_default_users` on a fresh store: the seeded admin row (timestamps
written only by the unmodelled server default are `none`). -/
def initialDB : DB :=
  { users := [{ id := 1, username := "管理员",
                hashed_password := get_password_hash "DongSheng2025#",
                plain_password := some "DongSheng2025#",
                email := some "admin@example.com",
                phone := some "13800000000",
                target_url := "https://docs.swanlab.cn/guide_cloud/general/quick-start.html",
                is_admin := true, state := "inactive",
                instance_id := none, instance_uuid := none,
                bearer_token := none, owner := none,
                last_heartbeat := none, last_login := none, created_at := none }],
    instances := [],
    nextUserId := 2,
    nextInstanceId := 1 }

/-- Decidability of a bounded universal over an option. -/
instance optionBAllDecidable {α : Type} (p : α → Prop) [DecidablePred p] :
    (o : Option α) → Decidable (∀ a ∈ o, p a)
  | none => .isTrue (by simp)
  | some x =>
      if h : p x then .isTrue (by simpa using h)
      else .isFalse (by simpa using h)

/-- The denormalization invariant of the spec: an assigned instance's user
exists and carries the instance's vendor id, and a user with a vendor id is
the assignee of the matching instance. -/
def DenormInv (db : DB) : Prop :=
  (∀ g ∈ db.instances, ∀ uid ∈ g.assigned_user_id,
    ∃ u ∈ db.users, u.id = uid ∧ u.instance_id = some g.instance_id) ∧
  (∀ u ∈ db.users, ∀ iid ∈ u.instance_id,
    ∃ g ∈ db.instances, g.instance_id = iid ∧ g.assigned_user_id = some u.id)

instance (db : DB) : Decidable (DenormInv db) := by
  unfold DenormInv
  infer_instance

/-- Structural well-formedness the relational schema guarantees: primary keys
are below the autoincrement counters and pairwise distinct, vendor instance
ids are unique, and (because `create_instance` rejects a falsy resolved id)
vendor instance ids are nonzero. -/
def WF (db : DB) : Prop :=
  (∀ u ∈ db.users, u.id < db.nextUserId) ∧
  (∀ g ∈ db.instances, g.id < db.nextInstanceId) ∧
  db.users.Pairwise (fun a b => a.id ≠ b.id) ∧
  db.instances.Pairwise (fun a b => a.id ≠ b.id) ∧
  db.instances.Pairwise (fun a b => a.instance_id ≠ b.instance_id) ∧
  (∀ g ∈ db.instances, g.instance_id ≠ 0)

instance (db : DB) : Decidable (WF db) := by
  unfold WF
  infer_instance

/-! ### Helper lemmas -/

theorem updateFirst_length {α : Type} (p : α → Bool) (f : α → α) (l : List α) :
    (updateFirst p f l).length = l.length := by
  induction l with
  | nil => rfl
  | cons x xs ih =>
      unfold updateFirst
      split <;> simp [ih]

/-- Decompose a list around the row `query(...).first()` returns, and compute
`updateFirst` and `eraseFirstP` on that decomposition. -/
theorem find?_decomp {α : Type} (p : α → Bool) (f : α → α) (l : List α) (x : α)
    (h : l.find? p = some x) :
    ∃ s t, l = s ++ x :: t ∧ (∀ y ∈ s, p y = false) ∧ p x = true ∧
      updateFirst p f l = s ++ f x :: t ∧ eraseFirstP p l = s ++ t := by
  induction l with
  | nil => simp [List.find?] at h
  | cons y ys ih =>
      by_cases hy : p y
      · rw [List.find?_cons_of_pos _ hy] at h
        injection h with h
        subst h
        exact ⟨[], ys, by simp, by simp, hy, by simp [updateFirst, hy],
          by simp [eraseFirstP, hy]⟩
      · rw [List.find?_cons_of_neg _ hy] at h
        obtain ⟨s, t, hl, hs, hx, hu, he⟩ := ih h
        refine ⟨y :: s, t, by simp [hl], ?_, hx, ?_, ?_⟩
        · intro z hz
          rcases List.mem_cons.1 hz with rfl | hz
          · simpa using hy
          · exact hs z hz
        · simp [updateFirst, hy, hu]
        · simp [eraseFirstP, hy, he]

theorem mem_updateFirst_other {α : Type} (p : α → Bool) (f : α → α) :
    ∀ (l : List α) (y : α), y ∈ updateFirst p f l →
      y ∈ l ∨ ∃ x ∈ l, p x = true ∧ y = f x := by
  intro l
  induction l with
  | nil => intro y hy; simp [updateFirst] at hy
  | cons z zs ih =>
      intro y hy
      unfold updateFirst at hy
      by_cases hz : p z
      · rw [if_pos hz] at hy
        rcases List.mem_cons.1 hy with h | h
        · exact Or.inr ⟨z, List.mem_cons_self z zs, hz, h⟩
        · exact Or.inl (List.mem_cons_of_mem z h)
      · rw [if_neg hz] at hy
        rcases List.mem_cons.1 hy with h | h
        · exact Or.inl (h ▸ List.mem_cons_self z zs)
        · rcases ih y h with h' | ⟨x, hx, hpx, hfy⟩
          · exact Or.inl (List.mem_cons_of_mem z h')
          · exact Or.inr ⟨x, List.mem_cons_of_mem z hx, hpx, hfy⟩

theorem updateFirst_eq_of_none {α : Type} (p : α → Bool) (f : α → α) :
    ∀ l : List α, (∀ x ∈ l, p x = false) → updateFirst p f l = l := by
  intro l
  induction l with
  | nil => intro _; rfl
  | cons z zs ih =>
      intro h
      unfold updateFirst
      rw [if_neg (by rw [h z (List.mem_cons_self z zs)]; simp)]
      rw [ih (fun x hx => h x (List.mem_cons_of_mem z hx))]

theorem mem_eraseFirstP {α : Type} (p : α → Bool) :
    ∀ (l : List α) (y : α), y ∈ eraseFirstP p l → y ∈ l := by
  intro l
  induction l with
  | nil => intro y hy; simp [eraseFirstP] at hy
  | cons z zs ih =>
      intro y hy
      unfold eraseFirstP at hy
      by_cases hz : p z
      · rw [if_pos hz] at hy
        exact List.mem_cons_of_mem z hy
      · rw [if_neg hz] at hy
        rcases List.mem_cons.1 hy with h | h
        · exact h ▸ List.mem_cons_self z zs
        · exact List.mem_cons_of_mem z (ih y h)

/-! ### Claim C6 -/

/-- C6: the start action is idempotent with respect to vendor calls.  When the
vendor-reported status (read back through `get_instance_by_uuid`) is already
running (code 3), `start_instance` reports success without sending the action
request, so a second immediate call — against the vendor state evolved by
whatever the first call sent, i.e. nothing — also sends nothing and succeeds;
symmetrically `stop_instance` skips the call and succeeds when the status is
already stopped (code 5). -/
theorem claim_C6_idempotent_actions (v : Vendor) (instance_id : Int)
    (instance_uuid : String) (inst : VInstance)
    (evolve : Vendor → ActionPayload → Vendor)
    (h : get_instance_by_uuid v instance_uuid = some inst) :
    (inst.status = STATUS_RUNNING →
      start_instance v instance_id instance_uuid = (true, []) ∧
      call_start_twice evolve v instance_id instance_uuid = (true, true, [])) ∧
    (inst.status = STATUS_STOPPED →
      stop_instance v instance_id instance_uuid = (true, []) ∧
      call_stop_twice evolve v instance_id instance_uuid = (true, true, [])) := by
  constructor
  · intro h3
    have hs : start_instance v instance_id instance_uuid = (true, []) := by
      unfold start_instance
      rw [h]
      simp [h3]
    refine ⟨hs, ?_⟩
    unfold call_start_twice
    rw [hs]
    simp [hs]
  · intro h5
    have hs : stop_instance v instance_id instance_uuid = (true, []) := by
      unfold stop_instance
      rw [h]
      simp [h5]
    refine ⟨hs, ?_⟩
    unfold call_stop_twice
    rw [hs]
    simp [hs]

/-- A vendor with one running and one stopped instance (the ids of
`control_gpufree.main`). -/
def vendorC6 : Vendor :=
  { instances := [{ webide_instance_id := 8379, webide_instance_uuid := "562clu54-eh98hxdt", status := 3 },
                  { webide_instance_id := 7792, webide_instance_uuid := "pe8xqrcp-d79wvs3s", status := 5 }] }

theorem claim_C6_idempotent_actions_witness :
    start_instance vendorC6 8379 "562clu54-eh98hxdt" = (true, []) ∧
    call_start_twice (fun w _ => w) vendorC6 8379 "562clu54-eh98hxdt" = (true, true, []) ∧
    stop_instance vendorC6 7792 "pe8xqrcp-d79wvs3s" = (true, []) ∧
    call_stop_twice (fun w _ => w) vendorC6 7792 "pe8xqrcp-d79wvs3s" = (true, true, []) := by
  have h1 := (claim_C6_idempotent_actions vendorC6 8379 "562clu54-eh98hxdt"
    { webide_instance_id := 8379, webide_instance_uuid := "562clu54-eh98hxdt", status := 3 }
    (fun w _ => w) rfl).1 rfl
  have h2 := (claim_C6_idempotent_actions vendorC6 7792 "pe8xqrcp-d79wvs3s"
    { webide_instance_id := 7792, webide_instance_uuid := "pe8xqrcp-d79wvs3s", status := 5 }
    (fun w _ => w) rfl).2 rfl
  exact ⟨h1.1, h1.2, h2.1, h2.2⟩

/-! ### Claim C7 -/

/-- C7: deleting a `GpuInstance` whose `assigned_user_id` is non-null is
rejected with an error.  The handler raises before touching the session and
`get_db` closes the session without committing, so the error case leaves every
row unchanged — in the embedding an `Except.error` produces no new store at
all. -/
theorem claim_C7_delete_assigned_fails (db : DB) (id : Nat) (g : GpuInstance)
    (hfind : db.instances.find? (fun x => x.id == id) = some g)
    (hassigned : g.assigned_user_id.isSome = true) :
    delete_instance db id = .error "cannot delete an assigned instance" := by
  unfold delete_instance
  rw [hfind]
  simp [hassigned]

/-- A store whose single instance is assigned to user 7. -/
def dbC7 : DB :=
  { users := [], nextUserId := 1, nextInstanceId := 2,
    instances := [{ id := 1, instance_id := 42, instance_uuid := "uu-42",
                    nickname := "n1", assigned_user_id := some 7 }] }

theorem claim_C7_delete_assigned_fails_witness :
    delete_instance dbC7 1 = .error "cannot delete an assigned instance" :=
  claim_C7_delete_assigned_fails dbC7 1
    { id := 1, instance_id := 42, instance_uuid := "uu-42",
      nickname := "n1", assigned_user_id := some 7 } rfl rfl

/-! ### Claim C9 -/

/-- C9: vendor instance resolution inspects only the first page.
`get_instance_by_uuid` and `get_instance_by_id` issue one list request with
`page_no = 1`, `page_size = 50` (see their definitions); hence, even when the
vendor list succeeds (`code = 200`) and the sought instance exists at the
vendor, an instance that is not among the first 50 entries resolves to `none`,
`get_instance_status` returns `(none, none)` for its id, and
`create_instance` for its uuid is rejected as not found. -/
theorem claim_C9_first_page_only (v : Vendor) (uuid : String) (iid : Int)
    (db : DB) (req : GpuInstanceCreate)
    (hok : v.listTransportOk = true) (hcode : v.listCode = 200)
    (hex : ∃ inst ∈ v.instances, inst.webide_instance_uuid = uuid)
    (h50 : ∀ inst ∈ v.instances.take 50, inst.webide_instance_uuid ≠ uuid)
    (hexid : ∃ inst ∈ v.instances, inst.webide_instance_id = iid)
    (h50id : ∀ inst ∈ v.instances.take 50, inst.webide_instance_id ≠ iid)
    (hreq : req.instance_uuid = uuid)
    (hdb : ∀ g ∈ db.instances, g.instance_uuid ≠ uuid) :
    get_instance_by_uuid v uuid = none ∧
    get_instance_by_id v iid = none ∧
    get_instance_status v iid = (none, none) ∧
    create_instance db v req = .error "instance not found at vendor" := by
  have hpage : list_instances v 1 50 =
      some { code := 200, dataList := v.instances.take 50 } := by
    unfold list_instances
    rw [hok, hcode]
    simp
  have huuid : get_instance_by_uuid v uuid = none := by
    unfold get_instance_by_uuid
    rw [hpage]
    simp only [beq_self_eq_true, if_true]
    exact List.find?_eq_none.2 (fun inst hinst => by
      simpa using h50 inst hinst)
  have hid : get_instance_by_id v iid = none := by
    unfold get_instance_by_id
    rw [hpage]
    simp only [beq_self_eq_true, if_true]
    exact List.find?_eq_none.2 (fun inst hinst => by
      simpa using h50id inst hinst)
  refine ⟨huuid, hid, ?_, ?_⟩
  · unfold get_instance_status
    rw [hid]
  · unfold create_instance
    have hany : db.instances.any (fun g => g.instance_uuid == req.instance_uuid) = false := by
      simp only [List.any_eq_false]
      intro g hg
      simpa [hreq] using hdb g hg
    rw [hany]
    simp only [Bool.false_eq_true, if_false]
    rw [hreq, huuid]

/-- A vendor whose 51st entry is the sought instance: 50 filler entries ahead
of it in the listing order. -/
def vendorC9 : Vendor :=
  { instances := List.replicate 50
      { webide_instance_id := 1, webide_instance_uuid := "filler", status := 3 } ++
      [{ webide_instance_id := 99, webide_instance_uuid := "far-uuid", status := 5 }] }

theorem claim_C9_first_page_only_witness :
    get_instance_by_uuid vendorC9 "far-uuid" = none ∧
    get_instance_by_id vendorC9 99 = none ∧
    get_instance_status vendorC9 99 = (none, none) ∧
    create_instance { users := [], instances := [], nextUserId := 1, nextInstanceId := 1 }
      vendorC9 { instance_uuid := "far-uuid", nickname := "n" } =
      .error "instance not found at vendor" := by
  refine claim_C9_first_page_only vendorC9 "far-uuid" 99
    { users := [], instances := [], nextUserId := 1, nextInstanceId := 1 }
    { instance_uuid := "far-uuid", nickname := "n" }
    rfl rfl ?_ ?_ ?_ ?_ rfl (by simp)
  · exact ⟨{ webide_instance_id := 99, webide_instance_uuid := "far-uuid", status := 5 },
      by simp [vendorC9], rfl⟩
  · intro inst hinst
    have : inst ∈ List.replicate 50
        { webide_instance_id := 1, webide_instance_uuid := "filler", status := 3 } := by
      simpa [vendorC9, List.take_append_of_le_length] using hinst
    rw [(List.mem_replicate.1 this).2]
    decide
  · exact ⟨{ webide_instance_id := 99, webide_instance_uuid := "far-uuid", status := 5 },
      by simp [vendorC9], rfl⟩
  · intro inst hinst
    have : inst ∈ List.replicate 50
        { webide_instance_id := 1, webide_instance_uuid := "filler", status := 3 } := by
      simpa [vendorC9, List.take_append_of_le_length] using hinst
    rw [(List.mem_replicate.1 this).2]
    decide

/-! ### Claim C8 -/

/-- A `POST /api/users` request as fired by some admin: requesting admin's
username, body, wall-clock time.  A rejected request leaves the store as it
was. -/
def apply_create (db : DB) (op : String × UserCreate × Int) : DB :=
  match create_user db op.1 op.2.1 op.2.2 with
  | .ok db' => db'
  | .error _ => db

/-- A sequence of `POST /api/users` requests. -/
def apply_creates (ops : List (String × UserCreate × Int)) (db : DB) : DB :=
  ops.foldl apply_create db

/-- Any successful `create_user` was below the cap and appends exactly one
user, owned by the requesting admin. -/
theorem create_user_ok_shape (db : DB) (name : String) (req : UserCreate)
    (now : Int) (db' : DB) (h : create_user db name req now = .ok db') :
    countOwned db name < MAX_USERS_PER_ADMIN ∧
    ∃ nu : User, nu.owner = some name ∧ db'.users = db.users ++ [nu] := by
  unfold create_user at h
  split at h
  · exact absurd h (by simp)
  next hlim =>
    refine ⟨by omega, ?_⟩
    split at h
    · exact absurd h (by simp)
    split at h
    · exact absurd h (by simp)
    split at h
    · exact absurd h (by simp)
    split at h
    · split at h
      · exact absurd h (by simp)
      · split at h
        · exact absurd h (by simp)
        · simp only [Except.ok.injEq] at h
          subst h
          exact ⟨_, rfl, rfl⟩
    · simp only [Except.ok.injEq] at h
      subst h
      exact ⟨_, rfl, rfl⟩

theorem countOwned_append (users : List User) (nu : User) (name : String) :
    (List.filter (fun u => u.owner == some name) (users ++ [nu])).length =
    (List.filter (fun u => u.owner == some name) users).length +
      (if nu.owner == some name then 1 else 0) := by
  rw [List.filter_append, List.length_append]
  by_cases hnu : nu.owner == some name
  · simp [hnu]
  · simp [hnu]

/-- One request keeps every admin's owned-user count at or below the cap. -/
theorem countOwned_apply_create_le (db : DB) (name : String)
    (op : String × UserCreate × Int)
    (hle : countOwned db name ≤ MAX_USERS_PER_ADMIN) :
    countOwned (apply_create db op) name ≤ MAX_USERS_PER_ADMIN := by
  unfold apply_create
  cases hc : create_user db op.1 op.2.1 op.2.2 with
  | error e => exact hle
  | ok db' =>
      obtain ⟨hlt, nu, hown, husers⟩ :=
        create_user_ok_shape db op.1 op.2.1 op.2.2 db' hc
      have hcount : countOwned db' name = countOwned db name +
          (if nu.owner == some name then 1 else 0) := by
        unfold countOwned
        rw [husers]
        exact countOwned_append db.users nu name
      by_cases hn : nu.owner == some name
      · have hname : op.1 = name := by
          rw [hown] at hn
          exact Option.some.inj (eq_of_beq hn)
        rw [hname] at hlt
        rw [hcount, if_pos hn]
        omega
      · rw [hcount, if_neg hn]
        omega

/-- C8: the per-admin ownership cap is enforced.  `create_user` is rejected
when the requesting admin already owns `MAX_USERS_PER_ADMIN` (128) or more
users; consequently, starting from any store where the count is at or below
the cap (in particular the seeded store, where it is zero), no sequence of
create-user requests pushes the count of users owned by a given admin name
above the cap. -/
theorem claim_C8_owner_cap (db : DB) (name : String) (req : UserCreate)
    (now : Int) (ops : List (String × UserCreate × Int)) :
    (MAX_USERS_PER_ADMIN ≤ countOwned db name →
      create_user db name req now = .error "user limit reached") ∧
    (countOwned db name ≤ MAX_USERS_PER_ADMIN →
      countOwned (apply_creates ops db) name ≤ MAX_USERS_PER_ADMIN) ∧
    countOwned initialDB name = 0 := by
  refine ⟨?_, ?_, ?_⟩
  · intro hge
    unfold create_user
    rw [if_pos hge]
  · induction ops generalizing db with
    | nil => intro h; exact h
    | cons op rest ih =>
        intro h
        have hstep := countOwned_apply_create_le db name op h
        have : apply_creates (op :: rest) db = apply_creates rest (apply_create db op) := by
          unfold apply_creates
          rfl
        rw [this]
        exact ih (apply_create db op) hstep
  · simp [countOwned, initialDB]

/-- A store whose admin `boss` already owns exactly `MAX_USERS_PER_ADMIN`
users. -/
def dbCap : DB :=
  { users := List.replicate MAX_USERS_PER_ADMIN
      { id := 1, username := "u", hashed_password := "h", target_url := "t",
        owner := some "boss" },
    instances := [], nextUserId := 129, nextInstanceId := 1 }

theorem countOwned_dbCap : countOwned dbCap "boss" = MAX_USERS_PER_ADMIN := by
  unfold countOwned dbCap
  rw [List.filter_replicate]
  simp

theorem claim_C8_owner_cap_witness :
    create_user dbCap "boss" { username := "x", password := "p", target_url := "t" } 0 =
      .error "user limit reached" ∧
    countOwned (apply_creates
      [("boss", { username := "x", password := "p", target_url := "t" }, 0)] dbC7) "boss" ≤
      MAX_USERS_PER_ADMIN :=
  ⟨(claim_C8_owner_cap dbCap "boss" { username := "x", password := "p", target_url := "t" } 0
      []).1 (le_of_eq countOwned_dbCap.symm),
   (claim_C8_owner_cap dbC7 "boss" { username := "x", password := "p", target_url := "t" } 0
      [("boss", { username := "x", password := "p", target_url := "t" }, 0)]).2.1 (by decide)⟩

/-! ### Claims C1-C3: the background loops -/

theorem get_map_f (f : User → User) (users : List User) (i : Nat)
    (h : i < users.length) :
    ∃ h' : i < (users.map f).length, (users.map f).get ⟨i, h'⟩ = f (users.get ⟨i, h⟩) := by
  refine ⟨by simpa using h, ?_⟩
  simp

theorem map_cond_get_true (sel : User → Bool) (step : User → User) (users : List User)
    (i : Nat) (h : i < users.length) (hsel : sel (users.get ⟨i, h⟩) = true) :
    ∃ h' : i < (users.map (fun u => if sel u then step u else u)).length,
      (users.map (fun u => if sel u then step u else u)).get ⟨i, h'⟩ =
        step (users.get ⟨i, h⟩) := by
  obtain ⟨h', hg⟩ := get_map_f (fun u => if sel u then step u else u) users i h
  refine ⟨h', ?_⟩
  rw [hg]
  show (if sel (users.get ⟨i, h⟩) then step (users.get ⟨i, h⟩) else users.get ⟨i, h⟩) = _
  rw [hsel]
  simp

theorem map_cond_get_false (sel : User → Bool) (step : User → User) (users : List User)
    (i : Nat) (h : i < users.length) (hsel : sel (users.get ⟨i, h⟩) = false) :
    ∃ h' : i < (users.map (fun u => if sel u then step u else u)).length,
      (users.map (fun u => if sel u then step u else u)).get ⟨i, h'⟩ =
        users.get ⟨i, h⟩ := by
  obtain ⟨h', hg⟩ := get_map_f (fun u => if sel u then step u else u) users i h
  refine ⟨h', ?_⟩
  rw [hg]
  show (if sel (users.get ⟨i, h⟩) then step (users.get ⟨i, h⟩) else users.get ⟨i, h⟩) = _
  rw [hsel]
  simp

/-- A successful stop commits `state = "inactive"`, `last_heartbeat = None`. -/
theorem stopUserStep_success (stop : User → StopOutcome) (now : Int) (u : User)
    (hs : stop u = .success) :
    (stopUserStep stop now u).state = "inactive" ∧
    (stopUserStep stop now u).last_heartbeat = none := by
  have hstep : stopUserStep stop now u =
      ormCommit now u { u with state := "inactive", last_heartbeat := none } := by
    unfold stopUserStep
    rw [hs]
  rw [hstep]
  unfold ormCommit
  split
  next heq =>
    exact ⟨(congrArg User.state heq).symm, (congrArg User.last_heartbeat heq).symm⟩
  next => exact ⟨rfl, rfl⟩

/-- A failed stop leaves the row untouched. -/
theorem stopUserStep_failure (stop : User → StopOutcome) (now : Int) (u : User)
    (hf : stop u = .failure) : stopUserStep stop now u = u := by
  unfold stopUserStep
  rw [hf]

/-- An exception in the per-user body leaves the row untouched. -/
theorem stopUserStep_raised (stop : User → StopOutcome) (now : Int) (u : User)
    (hr : stop u = .raised) : stopUserStep stop now u = u := by
  unfold stopUserStep
  rw [hr]

/-- C1: one pass of the inactivity loop attempts a vendor stop for every user
with `state = "active"`, a non-null `instance_id`, and a non-null
`last_heartbeat` strictly older than `now` minus the configured timeout; on
vendor success that user's state becomes `"inactive"` and the heartbeat is
nulled, on vendor failure the state and heartbeat are left unchanged. -/
theorem claim_C1_inactivity_stop (stop : User → StopOutcome) (now : Int)
    (users : List User) (i : Nat) (h : i < users.length) (hb : Int)
    (hstate : (users.get ⟨i, h⟩).state = "active")
    (hinst : (users.get ⟨i, h⟩).instance_id.isSome = true)
    (hhb : (users.get ⟨i, h⟩).last_heartbeat = some hb)
    (hold : hb < now - 60 * INACTIVITY_TIMEOUT_MINUTES) :
    users.get ⟨i, h⟩ ∈ (check_inactive_users_pass stop now users).2 ∧
    ∃ h' : i < (check_inactive_users_pass stop now users).1.length,
      (stop (users.get ⟨i, h⟩) = .success →
        ((check_inactive_users_pass stop now users).1.get ⟨i, h'⟩).state = "inactive" ∧
        ((check_inactive_users_pass stop now users).1.get ⟨i, h'⟩).last_heartbeat = none) ∧
      (stop (users.get ⟨i, h⟩) = .failure →
        ((check_inactive_users_pass stop now users).1.get ⟨i, h'⟩).state =
          (users.get ⟨i, h⟩).state ∧
        ((check_inactive_users_pass stop now users).1.get ⟨i, h'⟩).last_heartbeat =
          (users.get ⟨i, h⟩).last_heartbeat) := by
  have hsel : inactivitySelect (now - 60 * INACTIVITY_TIMEOUT_MINUTES)
      (users.get ⟨i, h⟩) = true := by
    unfold inactivitySelect
    rw [hstate, hinst, hhb]
    simp [hold]
  constructor
  · exact List.mem_filter.2 ⟨List.get_mem users i h, hsel⟩
  · obtain ⟨h', hget⟩ := map_cond_get_true
      (inactivitySelect (now - 60 * INACTIVITY_TIMEOUT_MINUTES))
      (stopUserStep stop now) users i h hsel
    have hget' : (check_inactive_users_pass stop now users).1.get ⟨i, h'⟩ =
        stopUserStep stop now (users.get ⟨i, h⟩) := hget
    refine ⟨h', ?_, ?_⟩
    · intro hs
      rw [hget']
      exact stopUserStep_success stop now (users.get ⟨i, h⟩) hs
    · intro hf
      rw [hget', stopUserStep_failure stop now (users.get ⟨i, h⟩) hf]
      exact ⟨rfl, rfl⟩

/-- A user with a stale heartbeat, for the loop witnesses. -/
def staleUser : User :=
  { id := 3, username := "bob", hashed_password := "h", target_url := "t",
    state := "active", instance_id := some 42, instance_uuid := some "uu-42",
    last_heartbeat := some 0 }

theorem claim_C1_inactivity_stop_witness :
    staleUser ∈ (check_inactive_users_pass (fun _ => .success) 20000 [staleUser]).2 ∧
    ∃ h' : 0 < (check_inactive_users_pass (fun _ => .success) 20000 [staleUser]).1.length,
      ((check_inactive_users_pass (fun _ => .success) 20000 [staleUser]).1.get
        ⟨0, h'⟩).state = "inactive" ∧
      ((check_inactive_users_pass (fun _ => .success) 20000 [staleUser]).1.get
        ⟨0, h'⟩).last_heartbeat = none := by
  obtain ⟨hmem, h', himp, _⟩ := claim_C1_inactivity_stop (fun _ => .success) 20000
    [staleUser] 0 (by decide) 0 rfl rfl rfl (by decide)
  exact ⟨hmem, h', himp rfl⟩

/-- C2: one firing of the daily shutdown attempts a vendor stop for every user
with a non-null `instance_id`, whatever that user's state; a successful stop
sets `state = "inactive"` and nulls the heartbeat; and the set of users whose
stop is attempted does not depend on the stop outcomes at all, so one user's
failure or exception cannot suppress another user's attempt within the same
firing. -/
theorem claim_C2_daily_shutdown (stop stop2 : User → StopOutcome) (now : Int)
    (users : List User) (i : Nat) (h : i < users.length)
    (hinst : (users.get ⟨i, h⟩).instance_id.isSome = true) :
    users.get ⟨i, h⟩ ∈ (daily_shutdown_firing stop now users).2 ∧
    (∃ h' : i < (daily_shutdown_firing stop now users).1.length,
      stop (users.get ⟨i, h⟩) = .success →
        ((daily_shutdown_firing stop now users).1.get ⟨i, h'⟩).state = "inactive" ∧
        ((daily_shutdown_firing stop now users).1.get ⟨i, h'⟩).last_heartbeat = none) ∧
    (daily_shutdown_firing stop now users).2 = (daily_shutdown_firing stop2 now users).2 := by
  have hsel : dailySelect (users.get ⟨i, h⟩) = true := hinst
  refine ⟨List.mem_filter.2 ⟨List.get_mem users i h, hsel⟩, ?_, rfl⟩
  obtain ⟨h', hget⟩ := map_cond_get_true dailySelect (stopUserStep stop now) users i h hsel
  have hget' : (daily_shutdown_firing stop now users).1.get ⟨i, h'⟩ =
      stopUserStep stop now (users.get ⟨i, h⟩) := hget
  refine ⟨h', fun hs => ?_⟩
  rw [hget']
  exact stopUserStep_success stop now (users.get ⟨i, h⟩) hs

theorem claim_C2_daily_shutdown_witness :
    staleUser ∈ (daily_shutdown_firing (fun _ => .failure) 100 [staleUser]).2 ∧
    (daily_shutdown_firing (fun _ => .failure) 100 [staleUser]).2 =
      (daily_shutdown_firing (fun _ => .raised) 100 [staleUser]).2 := by
  obtain ⟨hmem, _, hsame⟩ := claim_C2_daily_shutdown (fun _ => .failure)
    (fun _ => .raised) 100 [staleUser] 0 (by decide) rfl
  exact ⟨hmem, hsame⟩

/-- A user with no heartbeat is never selected by the inactivity filter. -/
theorem inactivitySelect_of_none_heartbeat (threshold : Int) (u : User)
    (hhb : u.last_heartbeat = none) : inactivitySelect threshold u = false := by
  unfold inactivitySelect
  rw [hhb]
  simp

/-- A user the inactivity filter rejects is untouched by one pass and gets no
stop attempt. -/
theorem inactivity_pass_untouched (stop : User → StopOutcome) (now : Int)
    (users : List User) (i : Nat) (h : i < users.length)
    (hsel : inactivitySelect (now - 60 * INACTIVITY_TIMEOUT_MINUTES)
      (users.get ⟨i, h⟩) = false) :
    ∃ h' : i < (check_inactive_users_pass stop now users).1.length,
      (check_inactive_users_pass stop now users).1.get ⟨i, h'⟩ = users.get ⟨i, h⟩ ∧
      users.get ⟨i, h⟩ ∉ (check_inactive_users_pass stop now users).2 := by
  obtain ⟨h', hg⟩ := map_cond_get_false
    (inactivitySelect (now - 60 * INACTIVITY_TIMEOUT_MINUTES))
    (stopUserStep stop now) users i h hsel
  refine ⟨h', hg, ?_⟩
  intro hmem
  have : inactivitySelect (now - 60 * INACTIVITY_TIMEOUT_MINUTES)
      (users.get ⟨i, h⟩) = true := (List.mem_filter.1 hmem).2
  rw [hsel] at this
  exact absurd this (by decide)

/-- C3: a user with `state = "active"` and `last_heartbeat = None` (the grace
window) is never selected or modified by the inactivity loop: across any
sequence of passes the row — state, heartbeat and instance assignment included
— is unchanged and no vendor stop is ever attempted for it. -/
theorem claim_C3_grace_window (passes : List ((User → StopOutcome) × Int))
    (users : List User) (i : Nat) (h : i < users.length)
    (hstate : (users.get ⟨i, h⟩).state = "active")
    (hhb : (users.get ⟨i, h⟩).last_heartbeat = none) :
    ∃ h' : i < (iterate_inactivity passes users).1.length,
      (iterate_inactivity passes users).1.get ⟨i, h'⟩ = users.get ⟨i, h⟩ ∧
      users.get ⟨i, h⟩ ∉ (iterate_inactivity passes users).2 := by
  induction passes generalizing users with
  | nil => exact ⟨h, rfl, by simp [iterate_inactivity]⟩
  | cons p rest ih =>
      have hsel := inactivitySelect_of_none_heartbeat
        (p.2 - 60 * INACTIVITY_TIMEOUT_MINUTES) (users.get ⟨i, h⟩) hhb
      obtain ⟨h1, heq1, hnot1⟩ := inactivity_pass_untouched p.1 p.2 users i h hsel
      obtain ⟨h2, heq2, hnot2⟩ := ih (check_inactive_users_pass p.1 p.2 users).1 h1
        (by rw [heq1]; exact hstate) (by rw [heq1]; exact hhb)
      have hfst : (iterate_inactivity (p :: rest) users).1 =
          (iterate_inactivity rest (check_inactive_users_pass p.1 p.2 users).1).1 := rfl
      have hsnd : (iterate_inactivity (p :: rest) users).2 =
          (check_inactive_users_pass p.1 p.2 users).2 ++
          (iterate_inactivity rest (check_inactive_users_pass p.1 p.2 users).1).2 := rfl
      refine ⟨by rw [hfst]; exact h2, ?_, ?_⟩
      · have : (iterate_inactivity (p :: rest) users).1.get ⟨i, by rw [hfst]; exact h2⟩ =
            (iterate_inactivity rest (check_inactive_users_pass p.1 p.2 users).1).1.get
              ⟨i, h2⟩ := rfl
        rw [this, heq2, heq1]
      · rw [hsnd]
        intro hmem
        rcases List.mem_append.1 hmem with hm | hm
        · exact hnot1 hm
        · rw [← heq1] at hm
          exact hnot2 hm

theorem claim_C3_grace_window_witness :
    ∃ h' : 0 < (iterate_inactivity
        [(fun _ => .success, 20000), (fun _ => .success, 40000)]
        [{ staleUser with last_heartbeat := none }]).1.length,
      (iterate_inactivity [(fun _ => .success, 20000), (fun _ => .success, 40000)]
        [{ staleUser with last_heartbeat := none }]).1.get ⟨0, h'⟩ =
        { staleUser with last_heartbeat := none } ∧
      { staleUser with last_heartbeat := none } ∉
        (iterate_inactivity [(fun _ => .success, 20000), (fun _ => .success, 40000)]
          [{ staleUser with last_heartbeat := none }]).2 :=
  claim_C3_grace_window [(fun _ => .success, 20000), (fun _ => .success, 40000)]
    [{ staleUser with last_heartbeat := none }] 0 (by decide) rfl rfl

/-! ### Claim C10 -/

/-- A successful `query_instance` changes at most `state` and `last_login` of
the row; `state` follows the 3/5 reconciliation rule; `last_login` is either
untouched (no net change, no `UPDATE`) or refreshed by the schema's
`onupdate=func.now()`. -/
theorem query_instance_ok_fields (v : Vendor) (now : Int) (u : User)
    (r : User × Int × Option String) (hok : query_instance v now u = .ok r) :
    r.1 = { u with state := r.1.state, last_login := r.1.last_login } ∧
    r.1.state = (if r.2.1 = STATUS_RUNNING then "active"
                 else if r.2.1 = STATUS_STOPPED then "inactive" else u.state) ∧
    (r.1 = u ∨ r.1.last_login = some now) := by
  unfold query_instance at hok
  split at hok
  · exact absurd hok (by simp)
  split at hok
  · exact absurd hok (by simp)
  next iid =>
    split at hok
    next sc ju heq =>
      simp only [Except.ok.injEq] at hok
      subst hok
      by_cases h3 : sc == STATUS_RUNNING
      · have hsc : sc = STATUS_RUNNING := eq_of_beq h3
        rw [if_pos h3]
        unfold ormCommit
        split
        next heq2 =>
          refine ⟨rfl, ?_, Or.inl rfl⟩
          subst hsc
          simp only [STATUS_RUNNING, STATUS_STOPPED]
          exact (congrArg User.state heq2).symm
        next =>
          refine ⟨rfl, ?_, Or.inr rfl⟩
          subst hsc
          simp only [STATUS_RUNNING, STATUS_STOPPED]
      · rw [if_neg h3]
        by_cases h5 : sc == STATUS_STOPPED
        · have hsc : sc = STATUS_STOPPED := eq_of_beq h5
          rw [if_pos h5]
          unfold ormCommit
          split
          next heq2 =>
            refine ⟨rfl, ?_, Or.inl rfl⟩
            subst hsc
            simp only [STATUS_RUNNING, STATUS_STOPPED]
            exact (congrArg User.state heq2).symm
          next =>
            refine ⟨rfl, ?_, Or.inr rfl⟩
            subst hsc
            simp [STATUS_RUNNING, STATUS_STOPPED]
        · rw [if_neg h5]
          have hne3 : ¬ sc = STATUS_RUNNING := fun hc => h3 (by rw [hc]; exact beq_self_eq_true _)
          have hne5 : ¬ sc = STATUS_STOPPED := fun hc => h5 (by rw [hc]; exact beq_self_eq_true _)
          unfold ormCommit
          rw [if_pos rfl]
          refine ⟨rfl, ?_, Or.inl rfl⟩
          simp [hne3, hne5]
    next heq => exact absurd hok (by simp)

/-- The store-level frame of `query_instance_db`: instances and counters are
untouched, the user list keeps its length, and every row of the result is
either an original row or an original row with only `state` and `last_login`
changed. -/
theorem query_instance_db_frame (v : Vendor) (now : Int) (db : DB) (uid : Nat) :
    (query_instance_db v now db uid).instances = db.instances ∧
    (query_instance_db v now db uid).users.length = db.users.length ∧
    ∀ w ∈ (query_instance_db v now db uid).users,
      w ∈ db.users ∨ ∃ u0 ∈ db.users,
        w = { u0 with state := w.state, last_login := w.last_login } := by
  unfold query_instance_db
  split
  · exact ⟨rfl, rfl, fun w hw => Or.inl hw⟩
  next u hfind =>
    split
    next r hok =>
      refine ⟨rfl, by simp [updateFirst_length], ?_⟩
      intro w hw
      rcases mem_updateFirst_other _ _ _ w hw with hmem | ⟨x, hx, hpx, hwx⟩
      · exact Or.inl hmem
      · right
        refine ⟨u, List.mem_of_find?_eq_some hfind, ?_⟩
        have hf := query_instance_ok_fields v now u r hok
        rw [hwx]
        exact hf.1
    next => exact ⟨rfl, rfl, fun w hw => Or.inl hw⟩

/-- C10 (amended): the status-query handler reconciles `state` with the
vendor status (3 → `"active"`, 5 → `"inactive"`, anything else leaves it) and
touches no `GpuInstance` row and no user field other than `state` — except
`last_login`, which the schema itself (`onupdate=func.now()` in `models.py`)
refreshes whenever the commit flushes a net change to the row. -/
theorem claim_C10_query_state_frame (v : Vendor) (now : Int) (db : DB)
    (uid : Nat) (u : User) (r : User × Int × Option String)
    (hok : query_instance v now u = .ok r) :
    (r.1 = { u with state := r.1.state, last_login := r.1.last_login } ∧
     r.1.state = (if r.2.1 = STATUS_RUNNING then "active"
                  else if r.2.1 = STATUS_STOPPED then "inactive" else u.state) ∧
     (r.1 = u ∨ r.1.last_login = some now)) ∧
    (query_instance_db v now db uid).instances = db.instances ∧
    (query_instance_db v now db uid).users.length = db.users.length ∧
    ∀ w ∈ (query_instance_db v now db uid).users,
      w ∈ db.users ∨ ∃ u0 ∈ db.users,
        w = { u0 with state := w.state, last_login := w.last_login } :=
  ⟨query_instance_ok_fields v now u r hok,
   (query_instance_db_frame v now db uid).1,
   (query_instance_db_frame v now db uid).2.1,
   (query_instance_db_frame v now db uid).2.2⟩

/-- The vendor and user of the C10 scenario: the vendor reports status 3 for
instance 42; the user is `"inactive"` with `last_login = 100`. -/
def vendorC10 : Vendor :=
  { instances := [{ webide_instance_id := 42, webide_instance_uuid := "uu-42", status := 3 }] }

def userC10 : User :=
  { id := 7, username := "quser", hashed_password := "h", target_url := "t",
    state := "inactive", instance_id := some 42, instance_uuid := some "uu-42",
    last_login := some 100 }

def dbC10 : DB :=
  { users := [userC10], instances := [], nextUserId := 8, nextInstanceId := 1 }

/-- C10 as frozen is false: on vendor status 3 the handler flushes a state
transition, and the `UPDATE` also rewrites `last_login` (a user field other
than `state`), from `some 100` to `some 200`. -/
theorem claim_C10_counterexample :
    query_instance vendorC10 200 userC10 =
      .ok ({ userC10 with state := "active", last_login := some 200 }, 3, none) ∧
    userC10.last_login = some 100 ∧
    ({ userC10 with state := "active", last_login := some 200 } : User).last_login ≠
      userC10.last_login := by
  refine ⟨rfl, rfl, by decide⟩

theorem claim_C10_query_state_frame_witness :
    ({ userC10 with state := "active", last_login := some 200 } : User) =
      { userC10 with
        state := ({ userC10 with state := "active", last_login := some 200 } : User).state,
        last_login := ({ userC10 with state := "active", last_login := some 200 } : User).last_login } ∧
    (query_instance_db vendorC10 200 dbC10 7).instances = dbC10.instances := by
  have h := claim_C10_query_state_frame vendorC10 200 dbC10 7 userC10
    ({ userC10 with state := "active", last_login := some 200 }, 3, none) rfl
  exact ⟨h.1.1, h.2.1⟩

/-! ### Claim C4 -/

/-- An instance with vendor id 0 assigned to user 2, and a user 2 whose
denormalized `instance_id` is 0 (reachable through `update_instance`, which
accepts any integer vendor id). -/
def gZero : GpuInstance :=
  { id := 1, instance_id := 0, instance_uuid := "uu-0", nickname := "n0",
    assigned_user_id := some 2 }

def adminC4 : User :=
  { id := 1, username := "管理员", hashed_password := "h", target_url := "t",
    is_admin := true, owner := none }

def userZero : User :=
  { id := 2, username := "zed", hashed_password := "h", target_url := "t",
    owner := some "管理员", instance_id := some 0, instance_uuid := some "uu-0" }

def dbZero : DB :=
  { users := [adminC4, userZero], instances := [gZero],
    nextUserId := 3, nextInstanceId := 2 }

/-- An assigned instance, for the admin-creation half of the counterexample. -/
def gAssigned : GpuInstance :=
  { id := 1, instance_id := 42, instance_uuid := "uu-42", nickname := "n1",
    assigned_user_id := some 2 }

def dbAssigned : DB :=
  { users := [], instances := [gAssigned], nextUserId := 3, nextInstanceId := 2 }

def reqAdmin : UserCreate :=
  { username := "adm2", password := "pw", target_url := "t", is_admin := true,
    gpu_instance_id := some 1 }

/-- C4 as frozen is false on two corners.  (i) Its second clause drops the
"non-admin" qualifier: creating an admin user that supplies a
`gpu_instance_id` referring to an instance whose `assigned_user_id` is
non-null succeeds, because `create_user` only enters the instance block for
non-admin requests.  (ii) Its delete clause fails at vendor id 0: the release
is guarded by the truthiness test `if user.instance_id:`, so deleting a user
whose assigned instance has vendor id 0 deletes the user but leaves
`assigned_user_id` pointing at the deleted user. -/
theorem claim_C4_counterexample :
    reqAdmin.gpu_instance_id = some 1 ∧
    gAssigned.assigned_user_id = some 2 ∧
    create_user dbAssigned "管理员" reqAdmin 11 =
      .ok { users := [{ id := 3, username := "adm2", hashed_password := "bcrypt$pw",
                        plain_password := some "pw", email := none, phone := none,
                        target_url := "t", is_admin := true, state := "inactive",
                        instance_id := none, instance_uuid := none, bearer_token := none,
                        owner := some "管理员", last_heartbeat := none,
                        last_login := some 11, created_at := some 11 }],
            instances := [gAssigned], nextUserId := 4, nextInstanceId := 2 } ∧
    gZero.assigned_user_id = some 2 ∧
    userZero.instance_id = some gZero.instance_id ∧
    delete_user dbZero adminC4 2 =
      .ok { users := [adminC4], instances := [gZero],
            nextUserId := 3, nextInstanceId := 2 } := by
  refine ⟨rfl, rfl, rfl, rfl, rfl, rfl⟩

/-- C4 (amended): for a non-admin request with a nonzero `gpu_instance_id`, a
successful `create_user` both appends exactly one user carrying the selected
instance's vendor id/uuid and marks that instance row assigned to the new user
— one store, one commit — while an already-assigned instance makes the request
fail (an error carries no new store: the handler raises before mutating and the
session closes uncommitted); and `delete_user` of a user whose `instance_id`
is non-null and nonzero deletes the row and clears the matching instance's
`assigned_user_id` in the same result store.  (Admin creation ignores
`gpu_instance_id`; a vendor id of 0 is falsy in Python and skips the release:
see the counterexample.) -/
theorem claim_C4_assignment_atomic (db : DB) (name : String) (req : UserCreate)
    (now : Int) (g : GpuInstance) (current : User) (uid : Nat)
    (u : User) (iid : Int) (g2 : GpuInstance) :
    (req.is_admin = false →
      (truthyNat req.gpu_instance_id) = true →
      db.instances.find? (fun x => some x.id == req.gpu_instance_id) = some g →
      ∀ db', create_user db name req now = .ok db' →
        (∃ s t, db.instances = s ++ g :: t ∧
          db'.instances = s ++ { g with assigned_user_id := some db.nextUserId } :: t) ∧
        (∃ nu : User, nu.id = db.nextUserId ∧ nu.instance_id = some g.instance_id ∧
          nu.instance_uuid = some g.instance_uuid ∧ nu.owner = some name ∧
          db'.users = db.users ++ [nu])) ∧
    (req.is_admin = false →
      (truthyNat req.gpu_instance_id) = true →
      db.instances.find? (fun x => some x.id == req.gpu_instance_id) = some g →
      g.assigned_user_id.isSome = true →
      ∃ e, create_user db name req now = .error e) ∧
    (db.users.find? (fun x => x.id == uid) = some u →
      (u.id == current.id) = false → u.owner = some current.username →
      u.instance_id = some iid → iid ≠ 0 →
      db.instances.find? (fun x => some x.instance_id == u.instance_id) = some g2 →
      ∃ db', delete_user db current uid = .ok db' ∧
        db'.users = eraseFirstP (fun x => x.id == uid) db.users ∧
        ∃ s t, db.instances = s ++ g2 :: t ∧
          db'.instances = s ++ { g2 with assigned_user_id := none } :: t) := by
  refine ⟨?_, ?_, ?_⟩
  · intro hadm htr hfind db' hok
    unfold create_user at hok
    split at hok
    · exact absurd hok (by simp)
    split at hok
    · exact absurd hok (by simp)
    split at hok
    · exact absurd hok (by simp)
    split at hok
    · exact absurd hok (by simp)
    split at hok
    · split at hok
      next heq =>
        rw [hfind] at heq
        exact Option.noConfusion heq
      next g' heq =>
        have hg : g' = g := Option.some.inj (heq.symm.trans hfind)
        subst hg
        split at hok
        · exact absurd hok (by simp)
        · simp only [Except.ok.injEq] at hok
          subst hok
          obtain ⟨s, t, hl, hsf, hpg, hu, he⟩ := find?_decomp
            (fun x => some x.id == req.gpu_instance_id)
            (fun x => { x with assigned_user_id := some db.nextUserId })
            db.instances g' hfind
          exact ⟨⟨s, t, hl, hu⟩, ⟨_, rfl, rfl, rfl, rfl, rfl⟩⟩
    next hcond =>
      exfalso
      exact hcond (by rw [hadm, htr]; rfl)
  · intro hadm htr hfind hassigned
    unfold create_user
    split
    · exact ⟨_, rfl⟩
    split
    · exact ⟨_, rfl⟩
    split
    · exact ⟨_, rfl⟩
    split
    · exact ⟨_, rfl⟩
    split
    · rw [hfind]
      refine ⟨"gpu instance already assigned", ?_⟩
      simp [hassigned]
    next hcond =>
      exfalso
      exact hcond (by rw [hadm, htr]; rfl)
  · intro hfindu hne howner hinst hiz hfindg
    obtain ⟨s, t, hl, hsf, hpg, hu, he⟩ := find?_decomp
      (fun x => some x.instance_id == u.instance_id)
      (fun x => { x with assigned_user_id := none }) db.instances g2 hfindg
    have hdel : delete_user db current uid = .ok { db with
        users := eraseFirstP (fun x => x.id == uid) db.users,
        instances := updateFirst (fun x => some x.instance_id == u.instance_id)
          (fun x => { x with assigned_user_id := none }) db.instances } := by
      simp only [delete_user, hfindu]
      rw [if_neg (by simp [hne]), if_neg (by simp [howner])]
      rw [if_pos (by rw [hinst]; simp [truthyInt, hiz])]
    exact ⟨_, hdel, rfl, s, t, hl, hu⟩

/-- Fixtures for the C4 witness: a free instance, the admin, a non-admin
create request selecting it, and the expected stores. -/
def gFree : GpuInstance :=
  { id := 1, instance_id := 42, instance_uuid := "uu-42", nickname := "n1" }

def dbFree : DB :=
  { users := [adminC4], instances := [gFree], nextUserId := 2, nextInstanceId := 2 }

def reqBob : UserCreate :=
  { username := "bob", password := "pw", target_url := "t", gpu_instance_id := some 1 }

def bobUser : User :=
  { id := 2, username := "bob", hashed_password := "bcrypt$pw",
    plain_password := some "pw", target_url := "t", state := "inactive",
    instance_id := some 42, instance_uuid := some "uu-42",
    owner := some "管理员", last_login := some 10, created_at := some 10 }

def dbBob : DB :=
  { users := [adminC4, bobUser],
    instances := [{ gFree with assigned_user_id := some 2 }],
    nextUserId := 3, nextInstanceId := 2 }

def dbTaken : DB :=
  { users := [], instances := [gAssigned], nextUserId := 3, nextInstanceId := 2 }

theorem claim_C4_assignment_atomic_witness :
    ((∃ s t, dbFree.instances = s ++ gFree :: t ∧
       dbBob.instances = s ++ { gFree with assigned_user_id := some dbFree.nextUserId } :: t) ∧
     (∃ nu : User, nu.id = dbFree.nextUserId ∧ nu.instance_id = some gFree.instance_id ∧
       nu.instance_uuid = some gFree.instance_uuid ∧ nu.owner = some "管理员" ∧
       dbBob.users = dbFree.users ++ [nu])) ∧
    (∃ e, create_user dbTaken "管理员" reqBob 11 = .error e) ∧
    (∃ db', delete_user dbBob adminC4 2 = .ok db' ∧
      db'.users = eraseFirstP (fun x => x.id == 2) dbBob.users ∧
      ∃ s t, dbBob.instances = s ++ { gFree with assigned_user_id := some 2 } :: t ∧
        db'.instances = s ++ { { gFree with assigned_user_id := some 2 } with
          assigned_user_id := none } :: t) := by
  refine ⟨?_, ?_, ?_⟩
  · exact (claim_C4_assignment_atomic dbFree "管理员" reqBob 10 gFree adminC4 0
      adminC4 0 gFree).1 rfl rfl rfl dbBob rfl
  · exact (claim_C4_assignment_atomic dbTaken "管理员" reqBob 11 gAssigned adminC4 0
      adminC4 0 gFree).2.1 rfl rfl rfl rfl
  · exact (claim_C4_assignment_atomic dbBob "x" reqBob 0 gFree adminC4 2
      bobUser 42 { gFree with assigned_user_id := some 2 }).2.2 rfl rfl rfl rfl
      (by decide) rfl

/-! ### Claim C5: helper lemmas -/

theorem eraseFirstP_sublist {α : Type} (p : α → Bool) :
    ∀ l : List α, (eraseFirstP p l).Sublist l := by
  intro l
  induction l with
  | nil => exact List.Sublist.refl []
  | cons x xs ih =>
      unfold eraseFirstP
      by_cases hx : p x
      · rw [if_pos hx]
        exact List.sublist_cons_self x xs
      · rw [if_neg hx]
        exact List.Sublist.cons₂ x ih

/-- In a list whose keys are pairwise distinct, two members with the same key
are the same element. -/
theorem mem_eq_of_pairwise_key {α β : Type} (key : α → β) :
    ∀ l : List α, List.Pairwise (fun a b => key a ≠ key b) l →
      ∀ a ∈ l, ∀ b ∈ l, key a = key b → a = b := by
  intro l
  induction l with
  | nil => intro _ a ha; exact absurd ha (List.not_mem_nil a)
  | cons x xs ih =>
      intro hp a ha b hb hk
      rw [List.pairwise_cons] at hp
      rcases List.mem_cons.1 ha with rfl | ha'
      · rcases List.mem_cons.1 hb with rfl | hb'
        · rfl
        · exact absurd hk (hp.1 b hb')
      · rcases List.mem_cons.1 hb with rfl | hb'
        · exact absurd hk.symm (hp.1 a ha')
        · exact ih hp.2 a ha' b hb' hk

/-- Replacing one element by another that is related the same way preserves
pairwiseness. -/
theorem pairwise_replace {α : Type} (R : α → α → Prop) (s t : List α) (g g' : α)
    (hR1 : ∀ a, R a g → R a g') (hR2 : ∀ b, R g b → R g' b)
    (h : List.Pairwise R (s ++ g :: t)) : List.Pairwise R (s ++ g' :: t) := by
  rw [List.pairwise_append] at h ⊢
  obtain ⟨hs, hgt, hcross⟩ := h
  rw [List.pairwise_cons] at hgt ⊢
  refine ⟨hs, ⟨fun b hb => hR2 b (hgt.1 b hb), hgt.2⟩, ?_⟩
  intro a ha b hb
  rcases List.mem_cons.1 hb with rfl | hb'
  · exact hR1 a (hcross a ha g (List.mem_cons_self g t))
  · exact hcross a ha b (List.mem_cons_of_mem g hb')

/-- Membership in a decomposed list away from the distinguished element. -/
theorem mem_append_of_ne {α : Type} (s t : List α) (g a : α)
    (ha : a ∈ s ++ g :: t) (hne : a ≠ g) : a ∈ s ++ t := by
  rcases List.mem_append.1 ha with hs | hgt
  · exact List.mem_append.2 (Or.inl hs)
  · rcases List.mem_cons.1 hgt with rfl | ht
    · exact absurd rfl hne
    · exact List.mem_append.2 (Or.inr ht)

theorem mem_append_mid {α : Type} (s t : List α) (g a : α)
    (ha : a ∈ s ++ t) : a ∈ s ++ g :: t := by
  rcases List.mem_append.1 ha with hs | ht
  · exact List.mem_append.2 (Or.inl hs)
  · exact List.mem_append.2 (Or.inr (List.mem_cons_of_mem g ht))

/-- Full characterization of a successful `create_user`: one fresh user is
appended, and either no instance was selected (no instance change) or the
selected, previously unassigned instance is marked assigned to the fresh
user's id. -/
theorem create_user_ok_cases (db : DB) (name : String) (req : UserCreate)
    (now : Int) (db' : DB) (h : create_user db name req now = .ok db') :
    ∃ nu : User, nu.id = db.nextUserId ∧ nu.owner = some name ∧
      db'.users = db.users ++ [nu] ∧ db'.nextUserId = db.nextUserId + 1 ∧
      db'.nextInstanceId = db.nextInstanceId ∧
      ((db'.instances = db.instances ∧ nu.instance_id = none) ∨
       (∃ g, db.instances.find? (fun x => some x.id == req.gpu_instance_id) = some g ∧
         g.assigned_user_id = none ∧
         nu.instance_id = some g.instance_id ∧ nu.instance_uuid = some g.instance_uuid ∧
         db'.instances = updateFirst (fun x => some x.id == req.gpu_instance_id)
           (fun x => { x with assigned_user_id := some db.nextUserId }) db.instances)) := by
  unfold create_user at h
  split at h
  · exact absurd h (by simp)
  split at h
  · exact absurd h (by simp)
  split at h
  · exact absurd h (by simp)
  split at h
  · exact absurd h (by simp)
  split at h
  · split at h
    next heq => exact absurd h (by simp)
    next g' heq =>
      split at h
      · exact absurd h (by simp)
      next hass =>
        have hassig : g'.assigned_user_id = none := by
          cases hga : g'.assigned_user_id with
          | none => rfl
          | some w => rw [hga] at hass; exact absurd rfl hass
        simp only [Except.ok.injEq] at h
        subst h
        exact ⟨_, rfl, rfl, rfl, rfl, rfl,
          Or.inr ⟨g', heq, hassig, rfl, rfl, rfl⟩⟩
  · simp only [Except.ok.injEq] at h
    subst h
    exact ⟨_, rfl, rfl, rfl, rfl, rfl, Or.inl ⟨rfl, rfl⟩⟩

/-- `create_user` preserves schema well-formedness and the denormalization
invariant. -/
theorem create_user_preserves (db : DB) (name : String) (req : UserCreate)
    (now : Int) (db' : DB) (hwf : WF db) (hinv : DenormInv db)
    (h : create_user db name req now = .ok db') : WF db' ∧ DenormInv db' := by
  obtain ⟨nu, hid, hown, hus, hnext, hnexti, hcase⟩ :=
    create_user_ok_cases db name req now db' h
  obtain ⟨wf1, wf2, wf3, wf4, wf5, wf6⟩ := hwf
  obtain ⟨inv1, inv2⟩ := hinv
  have husers_pair : db'.users.Pairwise (fun a b => a.id ≠ b.id) := by
    rw [hus]
    rw [List.pairwise_append]
    refine ⟨wf3, List.pairwise_singleton _ _, ?_⟩
    intro a ha b hb
    rw [List.mem_singleton.1 hb, hid]
    exact Nat.ne_of_lt (wf1 a ha)
  have husers_lt : ∀ x ∈ db'.users, x.id < db'.nextUserId := by
    intro x hx
    rw [hus] at hx
    rw [hnext]
    rcases List.mem_append.1 hx with hx | hx
    · exact Nat.lt_succ_of_lt (wf1 x hx)
    · rw [List.mem_singleton.1 hx, hid]
      exact Nat.lt_succ_self _
  rcases hcase with ⟨hinsts, hnuinst⟩ | ⟨g, hfind, hgassig, hnuiid, hnuuuid, hinsts⟩
  · refine ⟨⟨husers_lt, ?_, husers_pair, ?_, ?_, ?_⟩, ?_, ?_⟩
    · rw [hinsts, hnexti]; exact wf2
    · rw [hinsts]; exact wf4
    · rw [hinsts]; exact wf5
    · rw [hinsts]; exact wf6
    · rw [hinsts]
      intro g0 hg0 uid huid
      obtain ⟨u, hu, hup⟩ := inv1 g0 hg0 uid huid
      exact ⟨u, by rw [hus]; exact List.mem_append.2 (Or.inl hu), hup⟩
    · intro u hu iid hiid
      rw [hus] at hu
      rcases List.mem_append.1 hu with hu | hu
      · obtain ⟨g0, hg0, hgp⟩ := inv2 u hu iid hiid
        exact ⟨g0, by rw [hinsts]; exact hg0, hgp⟩
      · rw [List.mem_singleton.1 hu] at hiid
        rw [hnuinst] at hiid
        exact absurd hiid (by simp)
  · obtain ⟨s, t, hl, hsf, hpg, hupd, herase⟩ := find?_decomp
      (fun x => some x.id == req.gpu_instance_id)
      (fun x => { x with assigned_user_id := some db.nextUserId })
      db.instances g hfind
    rw [hupd] at hinsts
    refine ⟨⟨husers_lt, ?_, husers_pair, ?_, ?_, ?_⟩, ?_, ?_⟩
    · -- instance row ids below the counter
      intro g0 hg0
      rw [hnexti]
      rw [hinsts] at hg0
      rcases List.mem_append.1 hg0 with hg0 | hg0
      · exact wf2 g0 (by rw [hl]; exact List.mem_append.2 (Or.inl hg0))
      · rcases List.mem_cons.1 hg0 with rfl | hg0
        · exact wf2 g (by rw [hl]; exact List.mem_append.2 (Or.inr (List.mem_cons_self g t)))
        · exact wf2 g0 (by rw [hl]; exact List.mem_append.2 (Or.inr (List.mem_cons_of_mem g hg0)))
    · -- instance row ids pairwise distinct
      rw [hinsts]
      rw [hl] at wf4
      exact pairwise_replace _ s t g _ (fun a ha => ha) (fun b hb => hb) wf4
    · -- vendor ids pairwise distinct
      rw [hinsts]
      rw [hl] at wf5
      exact pairwise_replace _ s t g _ (fun a ha => ha) (fun b hb => hb) wf5
    · -- vendor ids nonzero
      rw [hinsts]
      intro g0 hg0
      rcases List.mem_append.1 hg0 with hg0 | hg0
      · exact wf6 g0 (by rw [hl]; exact List.mem_append.2 (Or.inl hg0))
      · rcases List.mem_cons.1 hg0 with rfl | hg0
        · exact wf6 g (by rw [hl]; exact List.mem_append.2 (Or.inr (List.mem_cons_self g t)))
        · exact wf6 g0 (by rw [hl]; exact List.mem_append.2 (Or.inr (List.mem_cons_of_mem g hg0)))
    · -- DenormInv part 1
      rw [hinsts]
      intro g0 hg0 uid huid
      rcases List.mem_append.1 hg0 with hg0 | hg0
      · obtain ⟨u, hu, hup⟩ := inv1 g0
          (by rw [hl]; exact List.mem_append.2 (Or.inl hg0)) uid huid
        exact ⟨u, by rw [hus]; exact List.mem_append.2 (Or.inl hu), hup⟩
      · rcases List.mem_cons.1 hg0 with rfl | hg0
        · -- the newly assigned row: its user is the new user
          have huid' : uid = db.nextUserId := by
            have h2 : some db.nextUserId = some uid := huid
            exact (Option.some.inj h2).symm
          refine ⟨nu, by rw [hus]; exact List.mem_append.2 (Or.inr (List.mem_singleton.2 rfl)), ?_, ?_⟩
          · rw [hid, huid']
          · exact hnuiid
        · obtain ⟨u, hu, hup⟩ := inv1 g0
            (by rw [hl]; exact List.mem_append.2 (Or.inr (List.mem_cons_of_mem g hg0))) uid huid
          exact ⟨u, by rw [hus]; exact List.mem_append.2 (Or.inl hu), hup⟩
    · -- DenormInv part 2
      intro u hu iid hiid
      rw [hus] at hu
      rcases List.mem_append.1 hu with hu | hu
      · obtain ⟨g0, hg0, hgid, hgassig0⟩ := inv2 u hu iid hiid
        have hg0ne : g0 ≠ g := by
          intro hgg
          rw [hgg, hgassig] at hgassig0
          exact Option.noConfusion hgassig0
        refine ⟨g0, ?_, hgid, hgassig0⟩
        rw [hinsts]
        exact mem_append_mid s t _ g0 (mem_append_of_ne s t g g0 (by rw [← hl]; exact hg0) hg0ne)
      · rw [List.mem_singleton.1 hu] at hiid ⊢
        rw [hnuiid] at hiid
        refine ⟨{ g with assigned_user_id := some db.nextUserId }, ?_, ?_, ?_⟩
        · rw [hinsts]
          exact List.mem_append.2 (Or.inr (List.mem_cons_self _ t))
        · exact Option.some.inj hiid
        · rw [hid]

/-- Full characterization of a successful `delete_user`: the found user row is
removed; the matching instance is released exactly when the user's
`instance_id` is truthy. -/
theorem delete_user_ok_cases (db : DB) (current : User) (uid : Nat) (db' : DB)
    (h : delete_user db current uid = .ok db') :
    ∃ u, db.users.find? (fun x => x.id == uid) = some u ∧
      db'.users = eraseFirstP (fun x => x.id == uid) db.users ∧
      db'.nextUserId = db.nextUserId ∧ db'.nextInstanceId = db.nextInstanceId ∧
      ((truthyInt u.instance_id = false ∧ db'.instances = db.instances) ∨
       (truthyInt u.instance_id = true ∧
        db'.instances = updateFirst (fun x => some x.instance_id == u.instance_id)
          (fun x => { x with assigned_user_id := none }) db.instances)) := by
  unfold delete_user at h
  split at h
  next heq => exact absurd h (by simp)
  next u heq =>
    split at h
    · exact absurd h (by simp)
    split at h
    · exact absurd h (by simp)
    simp only [Except.ok.injEq] at h
    subst h
    refine ⟨u, heq, rfl, rfl, rfl, ?_⟩
    by_cases ht : truthyInt u.instance_id = true
    · exact Or.inr ⟨ht, by rw [if_pos ht]⟩
    · exact Or.inl ⟨Bool.eq_false_iff.2 ht, by rw [if_neg ht]⟩

/-- `delete_user` preserves schema well-formedness and the denormalization
invariant.  (Under `WF` a vendor id is never 0, so the truthiness guard on the
release cannot mis-fire on an assigned user.) -/
theorem delete_user_preserves (db : DB) (current : User) (uid : Nat) (db' : DB)
    (hwf : WF db) (hinv : DenormInv db) (h : delete_user db current uid = .ok db') :
    WF db' ∧ DenormInv db' := by
  obtain ⟨u, hfindu, hus, hnext, hnexti, hcase⟩ := delete_user_ok_cases db current uid db' h
  obtain ⟨wf1, wf2, wf3, wf4, wf5, wf6⟩ := hwf
  obtain ⟨inv1, inv2⟩ := hinv
  have hu_mem : u ∈ db.users := List.mem_of_find?_eq_some hfindu
  obtain ⟨su, tu, hlu, hsu, hpu, hupdu, heraseu⟩ := find?_decomp
    (fun x => x.id == uid) (fun x => x) db.users u hfindu
  rw [heraseu] at hus
  have hu_once : u ∉ su ++ tu := by
    intro hmem
    have hp := hlu ▸ wf3
    rw [List.pairwise_append] at hp
    rcases List.mem_append.1 hmem with hmem | hmem
    · exact hp.2.2 u hmem u (List.mem_cons_self u tu) rfl
    · rw [List.pairwise_cons] at hp
      exact hp.2.1.1 u hmem rfl
  have husers_lt : ∀ x ∈ db'.users, x.id < db'.nextUserId := by
    intro x hx
    rw [hnext]
    exact wf1 x (by rw [hlu]; exact mem_append_mid su tu u x (hus ▸ hx))
  have husers_pair : db'.users.Pairwise (fun a b => a.id ≠ b.id) := by
    rw [hus]
    exact List.Pairwise.sublist
      (List.Sublist.append_left (List.sublist_cons_self u tu) su) (hlu ▸ wf3)
  have hsurvive : ∀ z ∈ db.users, z ≠ u → z ∈ db'.users := by
    intro z hz hzne
    rw [hus]
    exact mem_append_of_ne su tu u z (by rw [← hlu]; exact hz) hzne
  rcases hcase with ⟨htr, hinsts⟩ | ⟨htr, hinsts⟩
  · -- no release: under WF + Inv the user had no instance at all
    have huinst : u.instance_id = none := by
      cases hui : u.instance_id with
      | none => rfl
      | some n =>
          by_cases hn : n = 0
          · obtain ⟨g0, hg0, hgid, _⟩ := inv2 u hu_mem n hui
            rw [hn] at hgid
            exact absurd hgid (wf6 g0 hg0)
          · rw [hui] at htr
            simp [truthyInt, hn] at htr
    refine ⟨⟨husers_lt, ?_, husers_pair, ?_, ?_, ?_⟩, ?_, ?_⟩
    · rw [hinsts, hnexti]; exact wf2
    · rw [hinsts]; exact wf4
    · rw [hinsts]; exact wf5
    · rw [hinsts]; exact wf6
    · rw [hinsts]
      intro g0 hg0 w hw
      obtain ⟨z, hz, hzid, hzinst⟩ := inv1 g0 hg0 w hw
      refine ⟨z, hsurvive z hz ?_, hzid, hzinst⟩
      intro hzu
      rw [hzu, huinst] at hzinst
      exact Option.noConfusion hzinst
    · intro z hz jid hjid
      obtain ⟨g0, hg0, hgid, hgassig⟩ := inv2 z
        (by rw [hlu]; exact mem_append_mid su tu u z (hus ▸ hz)) jid hjid
      exact ⟨g0, by rw [hinsts]; exact hg0, hgid, hgassig⟩
  · -- release: the user's vendor id is nonzero and names a unique instance
    obtain ⟨iid, hui, hiz⟩ : ∃ iid, u.instance_id = some iid ∧ iid ≠ 0 := by
      cases hui : u.instance_id with
      | none => rw [hui] at htr; exact absurd htr (by simp [truthyInt])
      | some n =>
          refine ⟨n, rfl, ?_⟩
          rw [hui] at htr
          intro hn
          rw [hn] at htr
          exact absurd htr (by simp [truthyInt])
    obtain ⟨gU, hgU, hgUid, hgUassig⟩ := inv2 u hu_mem iid hui
    have hfind2 : db.instances.find? (fun x => some x.instance_id == u.instance_id) ≠ none := by
      intro hnone
      have := List.find?_eq_none.1 hnone gU hgU
      rw [hui, hgUid] at this
      simp at this
    cases hf2 : db.instances.find? (fun x => some x.instance_id == u.instance_id) with
    | none => exact absurd hf2 hfind2
    | some g2 =>
        obtain ⟨s2, t2, hl2, hsf2, hpg2, hupd2, herase2⟩ := find?_decomp
          (fun x => some x.instance_id == u.instance_id)
          (fun x => { x with assigned_user_id := none }) db.instances g2 hf2
        rw [hupd2] at hinsts
        have hg2_mem : g2 ∈ db.instances := List.mem_of_find?_eq_some hf2
        have hg2id : g2.instance_id = iid := by
          have := eq_of_beq hpg2
          rw [hui] at this
          exact Option.some.inj this
        have hg2eq : gU = g2 :=
          mem_eq_of_pairwise_key (fun x => x.instance_id) db.instances wf5
            gU hgU g2 hg2_mem (by show gU.instance_id = g2.instance_id; rw [hgUid, hg2id])
        have hg2assig : g2.assigned_user_id = some u.id := hg2eq ▸ hgUassig
        have hmem_orig : ∀ y, y ∈ s2 ∨ y ∈ t2 → y ∈ db.instances := by
          intro y hy
          rw [hl2]
          rcases hy with hy | hy
          · exact List.mem_append.2 (Or.inl hy)
          · exact List.mem_append.2 (Or.inr (List.mem_cons_of_mem g2 hy))
        have hside_ne : ∀ y, y ∈ s2 ∨ y ∈ t2 → y.instance_id ≠ iid := by
          intro y hy hyid
          rcases hy with hy | hy
          · have := hsf2 y hy
            rw [hui] at this
            simp [hyid] at this
          · have hp := hl2 ▸ wf5
            rw [List.pairwise_append, List.pairwise_cons] at hp
            exact hp.2.1.1 y hy (by rw [hg2id, hyid])
        refine ⟨⟨husers_lt, ?_, husers_pair, ?_, ?_, ?_⟩, ?_, ?_⟩
        · intro g0 hg0
          rw [hnexti]
          rw [hinsts] at hg0
          rcases List.mem_append.1 hg0 with hg0 | hg0
          · exact wf2 g0 (hmem_orig g0 (Or.inl hg0))
          · rcases List.mem_cons.1 hg0 with rfl | hg0
            · exact wf2 g2 hg2_mem
            · exact wf2 g0 (hmem_orig g0 (Or.inr hg0))
        · rw [hinsts]
          rw [hl2] at wf4
          exact pairwise_replace _ s2 t2 g2 _ (fun a ha => ha) (fun b hb => hb) wf4
        · rw [hinsts]
          rw [hl2] at wf5
          exact pairwise_replace _ s2 t2 g2 _ (fun a ha => ha) (fun b hb => hb) wf5
        · rw [hinsts]
          intro g0 hg0
          rcases List.mem_append.1 hg0 with hg0 | hg0
          · exact wf6 g0 (hmem_orig g0 (Or.inl hg0))
          · rcases List.mem_cons.1 hg0 with rfl | hg0
            · exact wf6 g2 hg2_mem
            · exact wf6 g0 (hmem_orig g0 (Or.inr hg0))
        · -- DenormInv part 1
          rw [hinsts]
          intro g0 hg0 w hw
          rcases List.mem_append.1 hg0 with hg0 | hg0
          · obtain ⟨z, hz, hzid, hzinst⟩ := inv1 g0 (hmem_orig g0 (Or.inl hg0)) w hw
            refine ⟨z, hsurvive z hz ?_, hzid, hzinst⟩
            intro hzu
            rw [hzu, hui] at hzinst
            exact hside_ne g0 (Or.inl hg0) (Option.some.inj hzinst).symm
          · rcases List.mem_cons.1 hg0 with rfl | hg0
            · exact absurd hw (by simp)
            · obtain ⟨z, hz, hzid, hzinst⟩ := inv1 g0 (hmem_orig g0 (Or.inr hg0)) w hw
              refine ⟨z, hsurvive z hz ?_, hzid, hzinst⟩
              intro hzu
              rw [hzu, hui] at hzinst
              exact hside_ne g0 (Or.inr hg0) (Option.some.inj hzinst).symm
        · -- DenormInv part 2
          intro z hz jid hjid
          have hz_orig : z ∈ db.users := by
            rw [hlu]
            exact mem_append_mid su tu u z (hus ▸ hz)
          obtain ⟨g0, hg0, hgid, hgassig⟩ := inv2 z hz_orig jid hjid
          have hg0ne : g0 ≠ g2 := by
            intro hgg
            rw [hgg, hg2assig] at hgassig
            have hzid : z.id = u.id := (Option.some.inj hgassig).symm
            have hzu : z = u := mem_eq_of_pairwise_key (fun x => x.id) db.users wf3
              z hz_orig u hu_mem hzid
            rw [hzu] at hz
            exact hu_once (hus ▸ hz)
          refine ⟨g0, ?_, hgid, hgassig⟩
          rw [hinsts]
          exact mem_append_mid s2 t2 _ g0
            (mem_append_of_ne s2 t2 g2 g0 (by rw [← hl2]; exact hg0) hg0ne)

/-- Full characterization of a successful `create_instance`: one unassigned
row with a fresh primary key and a nonzero, table-unique vendor id is
appended. -/
theorem create_instance_ok_cases (db : DB) (v : Vendor) (req : GpuInstanceCreate)
    (db' : DB) (h : create_instance db v req = .ok db') :
    ∃ vid : Int, vid ≠ 0 ∧ (∀ g ∈ db.instances, g.instance_id ≠ vid) ∧
      db'.users = db.users ∧ db'.nextUserId = db.nextUserId ∧
      db'.nextInstanceId = db.nextInstanceId + 1 ∧
      db'.instances = db.instances ++
        [{ id := db.nextInstanceId, instance_id := vid,
           instance_uuid := req.instance_uuid, nickname := req.nickname,
           vnc_url := req.vnc_url, assigned_user_id := none }] := by
  unfold create_instance at h
  split at h
  · exact absurd h (by simp)
  split at h
  · exact absurd h (by simp)
  next data heq =>
    split at h
    · exact absurd h (by simp)
    next hz =>
      split at h
      · exact absurd h (by simp)
      next hany =>
        simp only [Except.ok.injEq] at h
        subst h
        refine ⟨data.webide_instance_id, ?_, ?_, rfl, rfl, rfl, rfl⟩
        · intro hc
          exact hz (by rw [hc]; rfl)
        · intro g hg hc
          exact hany (List.any_eq_true.2 ⟨g, hg, by rw [hc]; exact beq_self_eq_true _⟩)

/-- `create_instance` preserves schema well-formedness and the denormalization
invariant. -/
theorem create_instance_preserves (db : DB) (v : Vendor) (req : GpuInstanceCreate)
    (db' : DB) (hwf : WF db) (hinv : DenormInv db)
    (h : create_instance db v req = .ok db') : WF db' ∧ DenormInv db' := by
  obtain ⟨vid, hvz, huniq, hus, hnext, hnexti, hinsts⟩ :=
    create_instance_ok_cases db v req db' h
  obtain ⟨wf1, wf2, wf3, wf4, wf5, wf6⟩ := hwf
  obtain ⟨inv1, inv2⟩ := hinv
  refine ⟨⟨?_, ?_, ?_, ?_, ?_, ?_⟩, ?_, ?_⟩
  · rw [hus, hnext]; exact wf1
  · rw [hinsts, hnexti]
    intro g hg
    rcases List.mem_append.1 hg with hg | hg
    · exact Nat.lt_succ_of_lt (wf2 g hg)
    · rw [List.mem_singleton.1 hg]
      exact Nat.lt_succ_self _
  · rw [hus]; exact wf3
  · rw [hinsts]
    rw [List.pairwise_append]
    refine ⟨wf4, List.pairwise_singleton _ _, ?_⟩
    intro a ha b hb
    rw [List.mem_singleton.1 hb]
    exact Nat.ne_of_lt (wf2 a ha)
  · rw [hinsts]
    rw [List.pairwise_append]
    refine ⟨wf5, List.pairwise_singleton _ _, ?_⟩
    intro a ha b hb
    rw [List.mem_singleton.1 hb]
    exact huniq a ha
  · rw [hinsts]
    intro g hg
    rcases List.mem_append.1 hg with hg | hg
    · exact wf6 g hg
    · rw [List.mem_singleton.1 hg]
      exact hvz
  · rw [hinsts, hus]
    intro g hg w hw
    rcases List.mem_append.1 hg with hg | hg
    · exact inv1 g hg w hw
    · rw [List.mem_singleton.1 hg] at hw
      exact absurd hw (by simp)
  · rw [hus]
    intro z hz jid hjid
    obtain ⟨g0, hg0, hgid, hgassig⟩ := inv2 z hz jid hjid
    exact ⟨g0, by rw [hinsts]; exact List.mem_append.2 (Or.inl hg0), hgid, hgassig⟩

/-- Full characterization of a successful `delete_instance`: the found,
unassigned row is removed. -/
theorem delete_instance_ok_cases (db : DB) (id : Nat) (db' : DB)
    (h : delete_instance db id = .ok db') :
    ∃ g, db.instances.find? (fun x => x.id == id) = some g ∧
      g.assigned_user_id = none ∧
      db'.users = db.users ∧ db'.nextUserId = db.nextUserId ∧
      db'.nextInstanceId = db.nextInstanceId ∧
      db'.instances = eraseFirstP (fun x => x.id == id) db.instances := by
  unfold delete_instance at h
  split at h
  next heq => exact absurd h (by simp)
  next g heq =>
    split at h
    next hass => exact absurd h (by simp)
    next hass =>
      simp only [Except.ok.injEq] at h
      subst h
      refine ⟨g, heq, ?_, rfl, rfl, rfl, rfl⟩
      cases hga : g.assigned_user_id with
      | none => rfl
      | some w => rw [hga] at hass; exact absurd rfl hass

/-- `delete_instance` preserves schema well-formedness and the denormalization
invariant. -/
theorem delete_instance_preserves (db : DB) (id : Nat) (db' : DB)
    (hwf : WF db) (hinv : DenormInv db) (h : delete_instance db id = .ok db') :
    WF db' ∧ DenormInv db' := by
  obtain ⟨g, hfind, hgassig, hus, hnext, hnexti, hinsts⟩ :=
    delete_instance_ok_cases db id db' h
  obtain ⟨wf1, wf2, wf3, wf4, wf5, wf6⟩ := hwf
  obtain ⟨inv1, inv2⟩ := hinv
  obtain ⟨s, t, hl, hsf, hpg, hupd, herase⟩ := find?_decomp
    (fun x => x.id == id) (fun x => x) db.instances g hfind
  rw [herase] at hinsts
  have hsub : (s ++ t).Sublist db.instances := by
    rw [hl]
    exact List.Sublist.append_left (List.sublist_cons_self g t) s
  have hmem : ∀ y ∈ db'.instances, y ∈ db.instances := by
    intro y hy
    exact hsub.subset (hinsts ▸ hy)
  refine ⟨⟨?_, ?_, ?_, ?_, ?_, ?_⟩, ?_, ?_⟩
  · rw [hus, hnext]; exact wf1
  · rw [hnexti]
    intro g0 hg0
    exact wf2 g0 (hmem g0 hg0)
  · rw [hus]; exact wf3
  · rw [hinsts]
    exact List.Pairwise.sublist hsub wf4
  · rw [hinsts]
    exact List.Pairwise.sublist hsub wf5
  · intro g0 hg0
    exact wf6 g0 (hmem g0 hg0)
  · rw [hus]
    intro g0 hg0 w hw
    exact inv1 g0 (hmem g0 hg0) w hw
  · rw [hus]
    intro z hz jid hjid
    obtain ⟨g0, hg0, hgid, hgassig0⟩ := inv2 z hz jid hjid
    have hg0ne : g0 ≠ g := by
      intro hgg
      rw [hgg, hgassig] at hgassig0
      exact Option.noConfusion hgassig0
    refine ⟨g0, ?_, hgid, hgassig0⟩
    rw [hinsts]
    exact mem_append_of_ne s t g g0 (by rw [← hl]; exact hg0) hg0ne

/-- C5 (amended): the denormalization invariant holds in the seeded store and
— together with the schema well-formedness that the relational constraints
supply (unique primary keys, unique and nonzero vendor ids) — is preserved by
user create, user delete, instance create and instance delete.  It is NOT
preserved by the update handlers (`update_user`, `update_instance`), which
write `instance_id` fields without reconciling the other table: see the
counterexample. -/
theorem claim_C5_denorm_invariant :
    (WF initialDB ∧ DenormInv initialDB) ∧
    (∀ db name req now db', WF db → DenormInv db →
      create_user db name req now = .ok db' → WF db' ∧ DenormInv db') ∧
    (∀ db current uid db', WF db → DenormInv db →
      delete_user db current uid = .ok db' → WF db' ∧ DenormInv db') ∧
    (∀ db v req db', WF db → DenormInv db →
      create_instance db v req = .ok db' → WF db' ∧ DenormInv db') ∧
    (∀ db id db', WF db → DenormInv db →
      delete_instance db id = .ok db' → WF db' ∧ DenormInv db') :=
  ⟨⟨by decide, by decide⟩,
   fun db name req now db' hwf hinv h =>
     create_user_preserves db name req now db' hwf hinv h,
   fun db current uid db' hwf hinv h =>
     delete_user_preserves db current uid db' hwf hinv h,
   fun db v req db' hwf hinv h =>
     create_instance_preserves db v req db' hwf hinv h,
   fun db id db' hwf hinv h =>
     delete_instance_preserves db id db' hwf hinv h⟩

/-- A store satisfying the invariant, and the same store after `update_user`
writes a dangling `instance_id`. -/
def aliceUser : User :=
  { id := 2, username := "alice", hashed_password := "h", target_url := "t",
    owner := some "管理员" }

def dbAlice : DB :=
  { users := [adminC4, aliceUser], instances := [], nextUserId := 3, nextInstanceId := 1 }

def dbAliceAfter : DB :=
  { users := [adminC4, { aliceUser with instance_id := some 42, last_login := some 6 }],
    instances := [], nextUserId := 3, nextInstanceId := 1 }

/-- C5 as frozen is false: `update_user` is a public operation, and setting
`instance_id := 42` on a user while no `GpuInstance` row carries vendor id 42
succeeds and leaves the store violating the invariant. -/
theorem claim_C5_counterexample :
    DenormInv dbAlice ∧ WF dbAlice ∧
    update_user dbAlice adminC4 2 { instance_id := some 42 } 6 = .ok dbAliceAfter ∧
    ¬ DenormInv dbAliceAfter := by
  exact ⟨by decide, by decide, rfl, by decide⟩

theorem claim_C5_denorm_invariant_witness :
    (WF dbBob ∧ DenormInv dbBob) ∧ (WF initialDB ∧ DenormInv initialDB) :=
  ⟨claim_C5_denorm_invariant.2.1 dbFree "管理员" reqBob 10 dbBob
     (by decide) (by decide) rfl,
   claim_C5_denorm_invariant.1⟩
